import Mathlib

/-!
Verification of the binary-queue matching algorithm and the time-bounded
payment/confirmation state machine of the payback repository.

The data model and the operations below are shallow embeddings of the two
page components of the repository: `src/Home.tsx` and the second page
component `src/unnamed/part_000` (called the `p0` variant below).  Both
components implement the same core; where their logic differs, both
variants are embedded and named accordingly.

Conventions of the embedding:
* wall-clock instants (`Date.now()`) are naturals (epoch milliseconds);
* date strings produced by `new Date().toISOString().slice(0,16)` are
  passed in as an opaque `nowStr : String` parameter;
* nullable TypeScript fields (`number | null`, `string | null`, optional
  fields) are `Option` values, and JavaScript truthiness tests on them are
  embedded by explicit helpers (`null`, `0` and `""` are falsy);
* `Math.random()` outcomes are injected as an explicit `Bool` parameter;
* `setTimeout` callbacks are embedded as separate step functions, applied
  after the step that scheduled them;
* purely presentational fields (icon classes, QR-code URLs, bank details,
  profile pictures) and locale formatting inside message strings are
  omitted; notification message texts are abbreviated but keep their
  identity as distinct constants.
-/

/-! ## JavaScript truthiness helpers -/

/-- Truthiness of a nullable JS number: `null` and `0` are falsy. -/
def numTruthy : Option Nat → Bool
  | none => false
  | some t => t != 0

/-- Truthiness of a nullable JS string: `null` and `""` are falsy. -/
def strOptTruthy : Option String → Bool
  | none => false
  | some s => s != ""

/-- Truthiness of a JS string: `""` is falsy. -/
def strTruthy (s : String) : Bool := s != ""

/-- Embedding of `s.startsWith(pre)` (used as `payment.type.startsWith('upline')`
in the confirmation-expiry sweep of `src/Home.tsx`).  Stated on the underlying
character lists so that it evaluates inside the kernel. -/
def strStartsWith (s pre : String) : Bool := pre.data.isPrefixOf s.data

/-! ## Data model (interfaces of `src/Home.tsx`, lines 15-130) -/

/-- `Payment.status` field: `'unpaid' | 'pending' | 'confirmed' | 'expired' |
'verifying' | 'failed' | 'disputed'`. -/
inductive PaymentStatus where
  | unpaid | pending | confirmed | expired | verifying | failed | disputed
deriving DecidableEq, Repr

/-- The `Payment` interface (`src/Home.tsx` line 25).  `type` ranges over the
eight slot strings `referral`, `binary`, `upline1` .. `upline5`, `admin`.
Presentational fields (`description`, `iconClass`, `qrCodeUrl`, `bankAccount`,
`upiId`, `usdtAddress`, `uniqueUsdtAmount`, `receiverContact`) are omitted. -/
structure Payment where
  id : String
  title : String
  amount : Int
  type : String
  status : PaymentStatus
  transactionId : String
  proof : Option String
  assignedTimestamp : Option Nat
  receiverId : String
deriving DecidableEq, Repr

/-- The `Confirmation` interface (`src/Home.tsx` line 57); `paymentId` is an
optional field there. -/
structure Confirmation where
  id : String
  paymentId : Option String
  senderName : String
  amount : Int
  transactionId : String
  proof : String
  date : String
  type : String
  submittedTimestamp : Nat
  receiverId : String
  paymentTitle : String
deriving DecidableEq, Repr

/-- Notification `type` field values. -/
inductive NotificationType where
  | income | referral | payment_confirmed | payment_received | system | error
deriving DecidableEq, Repr

/-- The `Notification` interface (`src/Home.tsx` and `src/unnamed/part_000`). -/
structure Notification where
  id : String
  ntype : NotificationType
  message : String
  timestamp : Nat
  isRead : Bool
deriving DecidableEq, Repr

/-- The `Transaction` interface: ledger entries appended by the core. -/
structure Transaction where
  date : String
  type : String
  details : String
  amount : Int
  status : String
deriving DecidableEq, Repr

/-- `MatchedPair.status` field: `'paid' | 'pending'`. -/
inductive PairStatus where
  | paid | pending
deriving DecidableEq, Repr

/-- The `MatchedPair` interface (also used for pending pairs). -/
structure MatchedPair where
  pairNumber : Nat
  leftUsers : List String
  rightUsers : List String
  date : String
  amount : Int
  status : PairStatus
deriving DecidableEq, Repr

/-- An element of `BinaryData.matchingQueue` (`src/Home.tsx` line 518);
`profilePicture` is presentational and omitted. -/
structure QueueEntrant where
  id : String
  name : String
  joinTime : String
  queuePosition : Nat
  isQualified : Bool
deriving DecidableEq, Repr

/-- The `BinaryData` interface (`src/Home.tsx` line 513). -/
structure BinaryData where
  leftTeam : List String
  rightTeam : List String
  matchedPairs : List MatchedPair
  pendingPairs : List MatchedPair
  matchingQueue : List QueueEntrant
  currentUserPosition : Nat
deriving DecidableEq, Repr

/-- `AdminUser.status` field: `'active' | 'pending' | 'on_hold'`. -/
inductive UserStatus where
  | active | pending | on_hold
deriving DecidableEq, Repr

/-- The `AdminUser` interface, reduced to the fields the core mutates. -/
structure AdminUser where
  id : String
  name : String
  status : UserStatus
deriving DecidableEq, Repr

/-! ## Binary queue matcher (`handleProcessBinaryQueue`)

`src/Home.tsx` lines 2878-2935 and `src/unnamed/part_000` lines 3240-3286.
The two variants implement the identical rotation; they differ only in the
identifier used for the local participant (the literal `'bq_5'` in
`src/Home.tsx`, `profile.id` in the p0 variant) and in notification texts.
The embedding takes that identifier as the `currentUserId` parameter. -/

/-- State touched by the queue matcher: the binary aggregate and the
notification feed. -/
structure QueueState where
  binaryData : BinaryData
  notifications : List Notification
deriving DecidableEq, Repr

/-- Embedding of `newQueue.map((user, index) => ({ ...user, queuePosition: index + 1 }))`,
with `i` the number of entrants already renumbered. -/
def renumberFrom (i : Nat) : List QueueEntrant → List QueueEntrant
  | [] => []
  | u :: us => { u with queuePosition := i + 1 } :: renumberFrom (i + 1) us

/-- Fallback entrant used to totalize the (in-bounds) indexing
`queue[firstQualifiedIndex]`. -/
def defaultQueueEntrant : QueueEntrant :=
  { id := "", name := "", joinTime := "", queuePosition := 0, isQualified := false }

/-- Notification pushed when no entrant is qualified. -/
def noQualifiedNote (now : Nat) : Notification :=
  { id := "n" ++ Nat.repr now, ntype := .system,
    message := "Binary queue process ran, but no qualified users were found to receive a match.",
    timestamp := now, isRead := false }

/-- Notification pushed for the winner of a match. -/
def winnerNote (now : Nat) (isCurrentUser : Bool) (winnerName : String) : Notification :=
  { id := "n_win_" ++ Nat.repr now, ntype := .income,
    message := if isCurrentUser
      then "Congratulations! You received a binary match from the global queue."
      else "User " ++ winnerName ++ " received a binary match from the global queue.",
    timestamp := now, isRead := false }

/-- Notification pushed when the local participant is skipped as unqualified. -/
def skippedNote (now : Nat) : Notification :=
  { id := "n_skip_" ++ Nat.repr now, ntype := .system,
    message := "You missed a binary match as you were not qualified. You have been moved to the end of the queue.",
    timestamp := now, isRead := false }

/-- Embedding of `handleProcessBinaryQueue` (`src/Home.tsx` line 2878).
`currentUserId` is `'bq_5'` in `src/Home.tsx` and `profile.id` in the p0
variant; `binaryAmount` is `systemConfig.binaryAmount`.  The JS
`findIndex(...) + 1` for the local participant (yielding `0` when absent,
since `findIndex` returns `-1`) is embedded through `findIdx?`. -/
def handleProcessBinaryQueue (currentUserId : String) (now : Nat) (nowStr : String)
    (binaryAmount : Int) (st : QueueState) : QueueState :=
  if st.binaryData.matchingQueue.any (·.isQualified) = false then
    { st with notifications := noQualifiedNote now :: st.notifications }
  else
    let queue := st.binaryData.matchingQueue
    let firstQualifiedIndex := queue.findIdx (·.isQualified)
    let winner := queue.getD firstQualifiedIndex defaultQueueEntrant
    let usersToRequeue := queue.take firstQualifiedIndex
    let remainingQueueAfterWinner := queue.drop (firstQualifiedIndex + 1)
    let newQueue := remainingQueueAfterWinner ++ usersToRequeue
    let updatedQueue := renumberFrom 0 newQueue
    let newMatch : MatchedPair :=
      { pairNumber := st.binaryData.matchedPairs.length + st.binaryData.pendingPairs.length + 1,
        leftUsers := ["System Match L"], rightUsers := ["System Match R"],
        date := nowStr, amount := binaryAmount, status := .paid }
    let newNotifications :=
      winnerNote now (winner.id == currentUserId) winner.name ::
        usersToRequeue.filterMap
          (fun u => if u.id == currentUserId then some (skippedNote now) else none)
    let currentUserNewPosition :=
      match updatedQueue.findIdx? (fun u => u.id == currentUserId) with
      | some i => i + 1
      | none => 0
    { binaryData :=
        { st.binaryData with
          matchedPairs :=
            if winner.id == currentUserId
            then st.binaryData.matchedPairs ++ [newMatch]
            else st.binaryData.matchedPairs,
          matchingQueue := updatedQueue,
          currentUserPosition :=
            if currentUserNewPosition > 0
            then currentUserNewPosition
            else st.binaryData.currentUserPosition },
      notifications := newNotifications ++ st.notifications }

/-! ## Helper lemmas about `renumberFrom` -/

theorem renumberFrom_length (i : Nat) (l : List QueueEntrant) :
    (renumberFrom i l).length = l.length := by
  induction l generalizing i with
  | nil => rfl
  | cons u us ih => simp [renumberFrom, ih]

theorem renumberFrom_getElem (i : Nat) (l : List QueueEntrant) (j : Nat)
    (hj1 : j < (renumberFrom i l).length) (hj2 : j < l.length) :
    (renumberFrom i l)[j] = { l[j] with queuePosition := i + j + 1 } := by
  induction l generalizing i j with
  | nil => simp at hj2
  | cons u us ih =>
    cases j with
    | zero => simp [renumberFrom]
    | succ j' =>
      have hj1' : j' < (renumberFrom (i + 1) us).length := by
        simpa [renumberFrom, Nat.succ_lt_succ_iff] using hj1
      have hj2' : j' < us.length := by simpa [Nat.succ_lt_succ_iff] using hj2
      simp only [renumberFrom, List.getElem_cons_succ]
      rw [ih _ _ hj1' hj2']
      have harith : i + 1 + j' + 1 = i + (j' + 1) + 1 := by omega
      rw [harith]

theorem renumberFrom_map_id (i : Nat) (l : List QueueEntrant) :
    (renumberFrom i l).map (·.id) = l.map (·.id) := by
  induction l generalizing i with
  | nil => rfl
  | cons u us ih => simp [renumberFrom, ih]

theorem renumberFrom_map_pos (i : Nat) (l : List QueueEntrant) :
    (renumberFrom i l).map (·.queuePosition) = List.range' (i + 1) l.length := by
  induction l generalizing i with
  | nil => rfl
  | cons u us ih =>
    simp only [renumberFrom, List.map_cons, List.length_cons, List.range'_succ, ih]

/-- Projection of the matcher on the queue component, in the qualified case. -/
theorem processQueue_queue (curId : String) (now : Nat) (nowStr : String) (amt : Int)
    (st : QueueState) (hq : st.binaryData.matchingQueue.any (·.isQualified) = true) :
    (handleProcessBinaryQueue curId now nowStr amt st).binaryData.matchingQueue =
      renumberFrom 0
        (st.binaryData.matchingQueue.drop
            (st.binaryData.matchingQueue.findIdx (·.isQualified) + 1) ++
          st.binaryData.matchingQueue.take
            (st.binaryData.matchingQueue.findIdx (·.isQualified))) := by
  rw [handleProcessBinaryQueue, if_neg (by simp [hq])]

/-- C1: when some entrant is qualified, `processQueue` picks as winner the
qualified entrant at the smallest index `k` (every entrant below `k` is
unqualified), replaces the queue by the entrants after `k` followed by the
skipped entrants `0..k` in order, re-numbering `queuePosition` to index + 1
throughout (the positions read `1, 2, ...` in order), and (for duplicate-free
entrant ids) the winner is absent from the resulting queue. -/
theorem C1_queue_rotation (currentUserId : String) (now : Nat) (nowStr : String)
    (binaryAmount : Int) (st : QueueState)
    (hq : ∃ e ∈ st.binaryData.matchingQueue, e.isQualified = true) :
    ∃ hk : st.binaryData.matchingQueue.findIdx (·.isQualified) <
        st.binaryData.matchingQueue.length,
      (st.binaryData.matchingQueue.get
          ⟨st.binaryData.matchingQueue.findIdx (·.isQualified), hk⟩).isQualified = true ∧
      (∀ i, (hi : i < st.binaryData.matchingQueue.findIdx (·.isQualified)) →
        (st.binaryData.matchingQueue.get ⟨i, Nat.lt_trans hi hk⟩).isQualified = false) ∧
      (handleProcessBinaryQueue currentUserId now nowStr binaryAmount
              st).binaryData.matchingQueue =
        renumberFrom 0
          (st.binaryData.matchingQueue.drop
              (st.binaryData.matchingQueue.findIdx (·.isQualified) + 1) ++
            st.binaryData.matchingQueue.take
              (st.binaryData.matchingQueue.findIdx (·.isQualified))) ∧
      (handleProcessBinaryQueue currentUserId now nowStr binaryAmount
              st).binaryData.matchingQueue.map (·.queuePosition) =
        List.range' 1 (st.binaryData.matchingQueue.length - 1) ∧
      ((st.binaryData.matchingQueue.map (·.id)).Nodup →
        (st.binaryData.matchingQueue.get
            ⟨st.binaryData.matchingQueue.findIdx (·.isQualified), hk⟩).id ∉
          ((handleProcessBinaryQueue currentUserId now nowStr binaryAmount
              st).binaryData.matchingQueue.map (·.id))) := by
  classical
  set q := st.binaryData.matchingQueue with hqdef
  have hany : q.any (·.isQualified) = true := by
    rcases hq with ⟨e, he, hqe⟩
    exact List.any_eq_true.mpr ⟨e, he, hqe⟩
  have hk : q.findIdx (·.isQualified) < q.length :=
    List.findIdx_lt_length_of_exists (by rcases hq with ⟨e, he, hqe⟩; exact ⟨e, he, hqe⟩)
  refine ⟨hk, ?_, ?_, ?_, ?_, ?_⟩
  · simpa using (List.findIdx_getElem (w := hk))
  · intro i hi
    simpa using (List.not_of_lt_findIdx hi)
  · exact processQueue_queue currentUserId now nowStr binaryAmount st hany
  · rw [processQueue_queue currentUserId now nowStr binaryAmount st hany, ← hqdef,
      renumberFrom_map_pos]
    congr 1
    rw [List.length_append, List.length_drop, List.length_take]
    omega
  · intro hnodup
    rw [processQueue_queue currentUserId now nowStr binaryAmount st hany, ← hqdef,
      renumberFrom_map_id]
    set k := q.findIdx (·.isQualified) with hkdef
    have hkm : k < (q.map (·.id)).length := by simpa using hk
    have hmap : q.map (·.id) =
        (q.map (·.id)).take k ++ (q.get ⟨k, hk⟩).id :: (q.map (·.id)).drop (k + 1) := by
      conv_lhs => rw [← List.take_append_drop k (q.map (·.id))]
      congr 1
      rw [← List.getElem_cons_drop _ k hkm]
      congr 1
      simp
    rw [hmap] at hnodup
    rw [List.nodup_append] at hnodup
    obtain ⟨h1, h2, h3⟩ := hnodup
    intro hmem
    rw [List.map_append, List.mem_append] at hmem
    rcases hmem with hmem | hmem
    · rw [List.nodup_cons] at h2
      refine h2.1 ?_
      simpa [List.map_drop] using hmem
    · refine absurd (List.mem_cons_self _ _) (h3 ?_)
      simpa [List.map_take] using hmem

/-- Decomposition of the id list of a queue at index `k`. -/
theorem queue_ids_decomp (q : List QueueEntrant) (k : Nat) (hk : k < q.length) :
    q.map (·.id) =
      (q.map (·.id)).take k ++ (q.get ⟨k, hk⟩).id :: (q.map (·.id)).drop (k + 1) := by
  have hkm : k < (q.map (·.id)).length := by simpa using hk
  conv_lhs => rw [← List.take_append_drop k (q.map (·.id))]
  congr 1
  rw [← List.getElem_cons_drop _ k hkm]
  congr 1
  simp

/-- C2 (amended): rotation preserves the multiset of entrant identities
MINUS the winner, who is consumed: `winner.id` together with the identities
of the rotated queue gives back exactly the original multiset.  After
rotation the queue has `N - 1` entrants and the `queuePosition` values are
exactly `1 .. N-1`, with no gaps or duplicates. -/
theorem C2_rotation_permutation (currentUserId : String) (now : Nat) (nowStr : String)
    (binaryAmount : Int) (st : QueueState)
    (hq : ∃ e ∈ st.binaryData.matchingQueue, e.isQualified = true) :
    ∃ hk : st.binaryData.matchingQueue.findIdx (·.isQualified) <
        st.binaryData.matchingQueue.length,
      (st.binaryData.matchingQueue.get
            ⟨st.binaryData.matchingQueue.findIdx (·.isQualified), hk⟩).id ::ₘ
          (↑((handleProcessBinaryQueue currentUserId now nowStr binaryAmount
              st).binaryData.matchingQueue.map (·.id)) : Multiset String) =
        (↑(st.binaryData.matchingQueue.map (·.id)) : Multiset String) ∧
      (handleProcessBinaryQueue currentUserId now nowStr binaryAmount
            st).binaryData.matchingQueue.length + 1 =
        st.binaryData.matchingQueue.length ∧
      (handleProcessBinaryQueue currentUserId now nowStr binaryAmount
            st).binaryData.matchingQueue.map (·.queuePosition) =
        List.range' 1 (st.binaryData.matchingQueue.length - 1) := by
  classical
  set q := st.binaryData.matchingQueue with hqdef
  have hany : q.any (·.isQualified) = true := by
    rcases hq with ⟨e, he, hqe⟩
    exact List.any_eq_true.mpr ⟨e, he, hqe⟩
  have hk : q.findIdx (·.isQualified) < q.length :=
    List.findIdx_lt_length_of_exists (by rcases hq with ⟨e, he, hqe⟩; exact ⟨e, he, hqe⟩)
  set k := q.findIdx (·.isQualified) with hkdef
  refine ⟨hk, ?_, ?_, ?_⟩
  · rw [processQueue_queue currentUserId now nowStr binaryAmount st hany, ← hqdef,
      renumberFrom_map_id, List.map_append, List.map_drop, List.map_take,
      ← Multiset.coe_add]
    conv_rhs => rw [queue_ids_decomp q k hk]
    rw [← Multiset.coe_add, ← Multiset.cons_coe, ← Multiset.singleton_add,
      ← Multiset.singleton_add]
    abel
  · rw [processQueue_queue currentUserId now nowStr binaryAmount st hany, ← hqdef,
      renumberFrom_length, List.length_append, List.length_drop, List.length_take]
    omega
  · rw [processQueue_queue currentUserId now nowStr binaryAmount st hany, ← hqdef,
      renumberFrom_map_pos]
    congr 1
    rw [List.length_append, List.length_drop, List.length_take]
    omega

/-- Concrete two-entrant queue state used to refute C2 as stated: the second
entrant is the only qualified one. -/
def cexC2State : QueueState :=
  { binaryData :=
      { leftTeam := [], rightTeam := [], matchedPairs := [], pendingPairs := [],
        matchingQueue :=
          [ { id := "bq_a", name := "A", joinTime := "t1", queuePosition := 1,
              isQualified := false },
            { id := "bq_b", name := "B", joinTime := "t2", queuePosition := 2,
              isQualified := true } ],
        currentUserPosition := 1 },
    notifications := [] }

/-- C2 as stated is false: on a queue of two entrants with exactly the second
qualified, `processQueue` returns a one-entrant queue, so the multiset of
entrant identities is not preserved and the positions are `[1]`, not `1..2`. -/
theorem C2_rotation_counterexample :
    ¬ ((↑((handleProcessBinaryQueue "bq_5" 0 "d" 500
            cexC2State).binaryData.matchingQueue.map (·.id)) : Multiset String) =
        (↑(cexC2State.binaryData.matchingQueue.map (·.id)) : Multiset String) ∧
      (handleProcessBinaryQueue "bq_5" 0 "d" 500
            cexC2State).binaryData.matchingQueue.map (·.queuePosition) =
        List.range' 1 cexC2State.binaryData.matchingQueue.length) := by
  decide

/-! ## Payment-expiry sweep (`timerInterval` effect)

`src/Home.tsx` lines 2681-2700 and `src/unnamed/part_000` lines 3047-3060.
The two variants have identical logic; `src/Home.tsx` uses the constant
`PAYMENT_TIMER_DURATION`, the p0 variant computes the duration from
`systemConfig.paymentTimerDuration`; the embedding takes it as `dur`. -/

/-- `PAYMENT_TIMER_DURATION = 2 * 60 * 60 * 1000` (`src/Home.tsx` line 13). -/
def PAYMENT_TIMER_DURATION : Nat := 2 * 60 * 60 * 1000

/-- Body of the payment-expiry sweep for one payment: `if (p.status ===
'unpaid' && p.assignedTimestamp && p.type !== 'admin')` and `Date.now() >
p.assignedTimestamp + PAYMENT_TIMER_DURATION` mark it expired.  Note that
the JS truthiness test on `p.assignedTimestamp` rejects both `null` and
the number `0`. -/
def expirePayment (now dur : Nat) (p : Payment) : Payment :=
  match p.assignedTimestamp with
  | none => p
  | some t =>
    if p.status = .unpaid ∧ t ≠ 0 ∧ p.type ≠ "admin" ∧ t + dur < now
    then { p with status := .expired }
    else p

/-- The whole sweep, mapped over `paymentsData` (the source's `hasChanged`
bookkeeping only avoids re-setting an unchanged array and does not alter
the resulting list). -/
def timerIntervalTick (now dur : Nat) (ps : List Payment) : List Payment :=
  ps.map (expirePayment now dur)

/-- Unpaid, non-admin payment whose `assignedTimestamp` is the (falsy)
number `0`. -/
def cexC4Payment : Payment :=
  { id := "pay_bin", title := "2. Binary", amount := 500, type := "binary",
    status := .unpaid, transactionId := "", proof := none,
    assignedTimestamp := some 0, receiverId := "system_binary" }

/-- C4 as stated is false at `assignedTimestamp = 0`: the payment is unpaid,
non-admin, and the current time exceeds `assignedTimestamp` plus the timer
duration, yet the sweep leaves it `unpaid` (the JS truthiness guard
`p.assignedTimestamp &&` also rejects the number `0`). -/
theorem C4_payment_expiry_counterexample :
    (cexC4Payment.status = .unpaid ∧ cexC4Payment.type ≠ "admin" ∧
      ∃ t, cexC4Payment.assignedTimestamp = some t ∧
        t + PAYMENT_TIMER_DURATION < 7200001) ∧
    (timerIntervalTick 7200001 PAYMENT_TIMER_DURATION [cexC4Payment]).map (·.status) =
      [.unpaid] := by
  refine ⟨⟨rfl, by decide, 0, rfl, by decide⟩, by decide⟩

/-- C4 (amended): the sweep marks a payment `expired` exactly when it is
`unpaid`, of non-`admin` type, its `assignedTimestamp` is set to a non-zero
instant `t`, and the current time exceeds `t` plus the timer duration;
`admin`-type payments and payments in any status other than `unpaid` are
left unchanged, and every payment is either unchanged or merely marked
`expired`. -/
theorem C4_payment_expiry (now dur : Nat) (ps : List Payment) :
    (timerIntervalTick now dur ps).length = ps.length ∧
    ∀ i, (hi : i < ps.length) → (hi2 : i < (timerIntervalTick now dur ps).length) →
      ((timerIntervalTick now dur ps)[i].status = .expired ↔
        (ps[i].status = .expired ∨
          (ps[i].status = .unpaid ∧ ps[i].type ≠ "admin" ∧
            ∃ t, ps[i].assignedTimestamp = some t ∧ t ≠ 0 ∧ t + dur < now))) ∧
      (ps[i].type = "admin" → (timerIntervalTick now dur ps)[i] = ps[i]) ∧
      (ps[i].status ≠ .unpaid → (timerIntervalTick now dur ps)[i] = ps[i]) ∧
      ((timerIntervalTick now dur ps)[i] = ps[i] ∨
        (timerIntervalTick now dur ps)[i] = { ps[i] with status := .expired }) := by
  refine ⟨by simp [timerIntervalTick], ?_⟩
  intro i hi hi2
  have hmap : (timerIntervalTick now dur ps)[i] = expirePayment now dur ps[i] := by
    simp [timerIntervalTick]
  rw [hmap]
  rcases hts : ps[i].assignedTimestamp with _ | t
  · refine ⟨?_, ?_, ?_, ?_⟩
    · simp [expirePayment, hts]
    · intro _; simp [expirePayment, hts]
    · intro _; simp [expirePayment, hts]
    · left; simp [expirePayment, hts]
  · by_cases hC : ps[i].status = .unpaid ∧ t ≠ 0 ∧ ps[i].type ≠ "admin" ∧ t + dur < now
    · refine ⟨?_, ?_, ?_, ?_⟩
      · simp only [expirePayment, hts, if_pos hC]
        constructor
        · intro _
          exact Or.inr ⟨hC.1, hC.2.2.1, t, rfl, hC.2.1, hC.2.2.2⟩
        · intro _; trivial
      · intro hadm; exact absurd hadm hC.2.2.1
      · intro hst; exact absurd hC.1 hst
      · right; simp [expirePayment, hts, if_pos hC]
    · have heq : expirePayment now dur ps[i] = ps[i] := by
        simp only [expirePayment, hts, if_neg hC]
      refine ⟨?_, fun _ => heq, fun _ => heq, Or.inl heq⟩
      rw [heq]
      constructor
      · intro h; exact Or.inl h
      · intro h
        rcases h with h | ⟨h1, h2, t', ht', h3, h4⟩
        · exact h
        · cases ht'
          exact absurd ⟨h1, h3, h2, h4⟩ hC

/-! ## Qualification edge-trigger (pending-pair conversion)

The `useEffect` on `isQualifiedForBinary` (`src/Home.tsx` lines 2600-2639,
`src/unnamed/part_000` lines 3004-3044): when the qualification flag reads
`true`, its previously recorded value was `false`, and there are pending
pairs, every pending pair is paid out.  The locale-formatted payout total
appears only inside the message text and is omitted. -/

/-- State read and written by the qualification effect; `prevQualified`
embeds `prevIsQualifiedRef.current`. -/
structure QualState where
  prevQualified : Bool
  binaryData : BinaryData
  notifications : List Notification
  transactionsData : List Transaction
deriving DecidableEq, Repr

/-- The lump-sum income notification emitted on qualification. -/
def qualIncomeNote (now : Nat) : Notification :=
  { id := "n" ++ Nat.repr now, ntype := .income,
    message := "Congratulations! You have qualified for binary income. Pending income has been paid out.",
    timestamp := now, isRead := false }

/-- The ledger transaction recorded for one paid-out pending pair. -/
def pendingPayoutTx (nowStr : String) (p : MatchedPair) : Transaction :=
  { date := nowStr, type := "binary",
    details := "Pending match " ++ Nat.repr p.pairNumber ++ " paid out",
    amount := p.amount, status := "paid" }

/-- One run of the qualification effect with current flag value `cur`;
afterwards `prevIsQualifiedRef.current = cur` in either case. -/
def qualificationStep (cur : Bool) (now : Nat) (nowStr : String) (st : QualState) :
    QualState :=
  if cur = true ∧ st.prevQualified = false ∧ st.binaryData.pendingPairs ≠ [] then
    let paidOutPairs := st.binaryData.pendingPairs.map
      (fun p => { p with status := PairStatus.paid, date := nowStr })
    { prevQualified := cur,
      binaryData :=
        { st.binaryData with
          matchedPairs := st.binaryData.matchedPairs ++ paidOutPairs,
          pendingPairs := [] },
      notifications := qualIncomeNote now :: st.notifications,
      transactionsData := paidOutPairs.map (pendingPayoutTx nowStr) ++ st.transactionsData }
  else { st with prevQualified := cur }

/-- A false-to-true qualification transition with no pending pairs. -/
def cexC5State : QualState :=
  { prevQualified := false,
    binaryData :=
      { leftTeam := [], rightTeam := [], matchedPairs := [], pendingPairs := [],
        matchingQueue := [], currentUserPosition := 1 },
    notifications := [], transactionsData := [] }

/-- C5 as stated is false: on a false-to-true transition of the
qualification flag with zero pending pairs, the effect emits no income
notification at all (its guard also requires `pendingPairs.length > 0`),
while the claim promises one lump-sum income notification per transition. -/
theorem C5_qualification_counterexample :
    cexC5State.prevQualified = false ∧
    ¬ ((qualificationStep true 7 "d" cexC5State).notifications.length =
        cexC5State.notifications.length + 1) := by
  decide

/-- C5 (amended): the pending-pair conversion fires exactly on a
false-to-true transition of the qualification flag at which at least one
pending pair exists: then every pending pair moves to `matchedPairs` with
status `paid`, `pendingPairs` becomes empty, one lump-sum income
notification is emitted and one ledger transaction per converted pair is
appended.  A repeated `true` value never fires (the state is returned
unchanged), and running the effect again immediately afterwards changes
nothing, so conversion happens exactly once per transition. -/
theorem C5_qualification_edge_trigger (now : Nat) (nowStr : String) (st : QualState) :
    (st.prevQualified = false → st.binaryData.pendingPairs ≠ [] →
      (qualificationStep true now nowStr st).binaryData.matchedPairs =
          st.binaryData.matchedPairs ++
            st.binaryData.pendingPairs.map
              (fun p => { p with status := PairStatus.paid, date := nowStr }) ∧
        (qualificationStep true now nowStr st).binaryData.pendingPairs = [] ∧
        (∀ q ∈ (qualificationStep true now nowStr st).binaryData.matchedPairs.drop
            st.binaryData.matchedPairs.length, q.status = PairStatus.paid) ∧
        (qualificationStep true now nowStr st).notifications =
          qualIncomeNote now :: st.notifications ∧
        (qualificationStep true now nowStr st).transactionsData =
          (st.binaryData.pendingPairs.map
              (fun p => { p with status := PairStatus.paid, date := nowStr })).map
            (pendingPayoutTx nowStr) ++ st.transactionsData) ∧
    (st.prevQualified = true → qualificationStep true now nowStr st = st) ∧
    (∀ now2 nowStr2, qualificationStep true now2 nowStr2
        (qualificationStep true now nowStr st) = qualificationStep true now nowStr st) := by
  refine ⟨?_, ?_, ?_⟩
  · intro hprev hpend
    have hcond : (true = true ∧ st.prevQualified = false ∧
        st.binaryData.pendingPairs ≠ []) := ⟨rfl, hprev, hpend⟩
    rw [qualificationStep, if_pos hcond]
    refine ⟨rfl, rfl, ?_, rfl, rfl⟩
    intro q hq
    rw [List.drop_append_of_le_length (le_refl _), List.drop_length,
      List.nil_append] at hq
    rcases List.mem_map.mp hq with ⟨p, _, hpq⟩
    rw [← hpq]
  · intro hprev
    rw [qualificationStep, if_neg (by simp [hprev])]
    cases st
    simp_all
  · intro now2 nowStr2
    have hprev1 : (qualificationStep true now nowStr st).prevQualified = true := by
      rw [qualificationStep]
      split <;> rfl
    rw [qualificationStep, if_neg (by simp [hprev1])]
    cases h : qualificationStep true now nowStr st
    simp_all

/-- Projection of the matcher on `matchedPairs`, in the qualified case: the
new pair is appended only when the winner is the local participant. -/
theorem processQueue_matched (curId : String) (now : Nat) (nowStr : String) (amt : Int)
    (st : QueueState) (hq : st.binaryData.matchingQueue.any (·.isQualified) = true) :
    (handleProcessBinaryQueue curId now nowStr amt st).binaryData.matchedPairs =
      (if (st.binaryData.matchingQueue.getD
            (st.binaryData.matchingQueue.findIdx (·.isQualified))
            defaultQueueEntrant).id == curId
       then st.binaryData.matchedPairs ++
          [{ pairNumber := st.binaryData.matchedPairs.length +
                st.binaryData.pendingPairs.length + 1,
             leftUsers := ["System Match L"], rightUsers := ["System Match R"],
             date := nowStr, amount := amt, status := .paid }]
       else st.binaryData.matchedPairs) := by
  rw [handleProcessBinaryQueue, if_neg (by simp [hq])]

/-- `processQueue` never touches `pendingPairs`. -/
theorem processQueue_pendingPairs (curId : String) (now : Nat) (nowStr : String)
    (amt : Int) (st : QueueState) :
    (handleProcessBinaryQueue curId now nowStr amt st).binaryData.pendingPairs =
      st.binaryData.pendingPairs := by
  rw [handleProcessBinaryQueue]
  split <;> rfl

/-- Projection of the matcher on `currentUserPosition`, in the qualified
case: the JS `findIndex(...) + 1` applied to the rotated queue, falling back
to the previous value when the local participant is absent (`findIndex`
returns `-1`, so the stored `0` fails the `> 0` test). -/
theorem processQueue_curpos (curId : String) (now : Nat) (nowStr : String) (amt : Int)
    (st : QueueState) (hq : st.binaryData.matchingQueue.any (·.isQualified) = true) :
    (handleProcessBinaryQueue curId now nowStr amt st).binaryData.currentUserPosition =
      match (handleProcessBinaryQueue curId now nowStr amt
          st).binaryData.matchingQueue.findIdx? (fun u => u.id == curId) with
      | some i => i + 1
      | none => st.binaryData.currentUserPosition := by
  rw [handleProcessBinaryQueue, if_neg (by simp [hq])]
  cases hfi : (renumberFrom 0
      (st.binaryData.matchingQueue.drop
          (st.binaryData.matchingQueue.findIdx (·.isQualified) + 1) ++
        st.binaryData.matchingQueue.take
          (st.binaryData.matchingQueue.findIdx (·.isQualified)))).findIdx?
      (fun u => u.id == curId) with
  | none => simp [hfi]
  | some i => simp [hfi]

/-- In the qualified case, every entrant of the rotated queue carries
`queuePosition = index + 1`. -/
theorem processQueue_pos_get (curId : String) (now : Nat) (nowStr : String) (amt : Int)
    (st : QueueState) (hq : st.binaryData.matchingQueue.any (·.isQualified) = true) :
    ∀ j, (hj : j < (handleProcessBinaryQueue curId now nowStr amt
        st).binaryData.matchingQueue.length) →
      ((handleProcessBinaryQueue curId now nowStr amt
          st).binaryData.matchingQueue.get ⟨j, hj⟩).queuePosition = j + 1 := by
  intro j hj
  have hmap : (handleProcessBinaryQueue curId now nowStr amt
      st).binaryData.matchingQueue.map (·.queuePosition) =
      List.range' 1 ((handleProcessBinaryQueue curId now nowStr amt
        st).binaryData.matchingQueue.length) := by
    rw [processQueue_queue curId now nowStr amt st hq, renumberFrom_map_pos,
      renumberFrom_length]
  have hj2 : j < ((handleProcessBinaryQueue curId now nowStr amt
      st).binaryData.matchingQueue.map (·.queuePosition)).length := by simpa using hj
  have h1 : ((handleProcessBinaryQueue curId now nowStr amt
      st).binaryData.matchingQueue.map (·.queuePosition))[j] =
      ((handleProcessBinaryQueue curId now nowStr amt
        st).binaryData.matchingQueue.get ⟨j, hj⟩).queuePosition := List.getElem_map _
  rw [← h1]
  simp only [hmap]
  rw [List.getElem_range']
  omega

/-- A queue whose only (qualified) entrant is not the local participant
`bq_5`, with empty pair lists. -/
def cexC6State : QueueState :=
  { binaryData :=
      { leftTeam := [], rightTeam := [], matchedPairs := [], pendingPairs := [],
        matchingQueue :=
          [ { id := "bq_9", name := "M", joinTime := "t", queuePosition := 1,
              isQualified := true } ],
        currentUserPosition := 1 },
    notifications := [] }

/-- C6 as stated is false: this `processQueue` call selects a winner (a
qualified entrant exists) yet appends nothing to `matchedPairs`, because the
source appends the new pair only when the winner is the local participant
(`winner.id === 'bq_5'`). -/
theorem C6_matched_pair_counterexample :
    cexC6State.binaryData.matchingQueue.any (·.isQualified) = true ∧
    (handleProcessBinaryQueue "bq_5" 3 "d" 500 cexC6State).binaryData.matchedPairs = [] := by
  constructor
  · decide
  · rw [processQueue_matched "bq_5" 3 "d" 500 cexC6State (by decide)]
    decide

/-- C6 (amended): when a winner is selected, the new `MatchedPair` has
status `paid`, amount equal to the configured binary amount and
`pairNumber = count(matchedPairs) + count(pendingPairs) + 1`, but it is
appended to `matchedPairs` only when the winner is the local participant;
otherwise `matchedPairs` is unchanged.  `pendingPairs` is never touched,
and whenever all existing pair numbers are at most
`count(matchedPairs) + count(pendingPairs)`, the new pair number strictly
exceeds every existing one (monotonicity). -/
theorem C6_matched_pair_creation (currentUserId : String) (now : Nat) (nowStr : String)
    (binaryAmount : Int) (st : QueueState)
    (hq : ∃ e ∈ st.binaryData.matchingQueue, e.isQualified = true) :
    ((st.binaryData.matchingQueue.getD
          (st.binaryData.matchingQueue.findIdx (·.isQualified))
          defaultQueueEntrant).id = currentUserId →
      (handleProcessBinaryQueue currentUserId now nowStr binaryAmount
          st).binaryData.matchedPairs =
        st.binaryData.matchedPairs ++
          [{ pairNumber := st.binaryData.matchedPairs.length +
                st.binaryData.pendingPairs.length + 1,
             leftUsers := ["System Match L"], rightUsers := ["System Match R"],
             date := nowStr, amount := binaryAmount, status := .paid }]) ∧
    ((st.binaryData.matchingQueue.getD
          (st.binaryData.matchingQueue.findIdx (·.isQualified))
          defaultQueueEntrant).id ≠ currentUserId →
      (handleProcessBinaryQueue currentUserId now nowStr binaryAmount
          st).binaryData.matchedPairs = st.binaryData.matchedPairs) ∧
    (handleProcessBinaryQueue currentUserId now nowStr binaryAmount
        st).binaryData.pendingPairs = st.binaryData.pendingPairs ∧
    ((∀ q ∈ st.binaryData.matchedPairs ++ st.binaryData.pendingPairs,
        q.pairNumber ≤ st.binaryData.matchedPairs.length +
          st.binaryData.pendingPairs.length) →
      ∀ q ∈ st.binaryData.matchedPairs ++ st.binaryData.pendingPairs,
        q.pairNumber < st.binaryData.matchedPairs.length +
          st.binaryData.pendingPairs.length + 1) := by
  have hany : st.binaryData.matchingQueue.any (·.isQualified) = true := by
    rcases hq with ⟨e, he, hqe⟩
    exact List.any_eq_true.mpr ⟨e, he, hqe⟩
  refine ⟨?_, ?_, processQueue_pendingPairs currentUserId now nowStr binaryAmount st, ?_⟩
  · intro hw
    rw [processQueue_matched currentUserId now nowStr binaryAmount st hany,
      if_pos (by simpa using hw)]
  · intro hw
    rw [processQueue_matched currentUserId now nowStr binaryAmount st hany,
      if_neg (by simpa using hw)]
  · intro hb q hqmem
    have := hb q hqmem
    omega

/-- C10: after a rotation, when the local participant is present in the
rotated queue, the stored `currentUserPosition` is exactly their 1-based
position there (the index of their first occurrence plus one, which is also
that entrant's re-numbered `queuePosition`); when absent, the stored value
silently keeps its previous, now-stale value. -/
theorem C10_current_user_position (currentUserId : String) (now : Nat) (nowStr : String)
    (binaryAmount : Int) (st : QueueState)
    (hq : ∃ e ∈ st.binaryData.matchingQueue, e.isQualified = true) :
    ((∃ e ∈ (handleProcessBinaryQueue currentUserId now nowStr binaryAmount
        st).binaryData.matchingQueue, e.id = currentUserId) →
      ∃ i, ∃ hi : i < (handleProcessBinaryQueue currentUserId now nowStr binaryAmount
          st).binaryData.matchingQueue.length,
        ((handleProcessBinaryQueue currentUserId now nowStr binaryAmount
            st).binaryData.matchingQueue.get ⟨i, hi⟩).id = currentUserId ∧
        ((handleProcessBinaryQueue currentUserId now nowStr binaryAmount
            st).binaryData.matchingQueue.get ⟨i, hi⟩).queuePosition = i + 1 ∧
        (handleProcessBinaryQueue currentUserId now nowStr binaryAmount
            st).binaryData.currentUserPosition = i + 1) ∧
    ((∀ e ∈ (handleProcessBinaryQueue currentUserId now nowStr binaryAmount
        st).binaryData.matchingQueue, e.id ≠ currentUserId) →
      (handleProcessBinaryQueue currentUserId now nowStr binaryAmount
          st).binaryData.currentUserPosition = st.binaryData.currentUserPosition) := by
  classical
  have hany : st.binaryData.matchingQueue.any (·.isQualified) = true := by
    rcases hq with ⟨e, he, hqe⟩
    exact List.any_eq_true.mpr ⟨e, he, hqe⟩
  constructor
  · intro hpresent
    have hex : ∃ e ∈ (handleProcessBinaryQueue currentUserId now nowStr binaryAmount
        st).binaryData.matchingQueue, (fun u => u.id == currentUserId) e = true := by
      rcases hpresent with ⟨e, he, hid⟩
      exact ⟨e, he, by simpa using hid⟩
    have hk := List.findIdx_lt_length_of_exists hex
    refine ⟨(handleProcessBinaryQueue currentUserId now nowStr binaryAmount
        st).binaryData.matchingQueue.findIdx (fun u => u.id == currentUserId), hk, ?_, ?_, ?_⟩
    · have := List.findIdx_getElem (w := hk)
      simpa using this
    · exact processQueue_pos_get currentUserId now nowStr binaryAmount st hany _ hk
    · rw [processQueue_curpos currentUserId now nowStr binaryAmount st hany]
      have hfi : (handleProcessBinaryQueue currentUserId now nowStr binaryAmount
          st).binaryData.matchingQueue.findIdx? (fun u => u.id == currentUserId) =
          some ((handleProcessBinaryQueue currentUserId now nowStr binaryAmount
            st).binaryData.matchingQueue.findIdx (fun u => u.id == currentUserId)) :=
        List.findIdx?_eq_some_iff_findIdx_eq.mpr ⟨hk, rfl⟩
      rw [hfi]
  · intro habsent
    rw [processQueue_curpos currentUserId now nowStr binaryAmount st hany]
    have hfi : (handleProcessBinaryQueue currentUserId now nowStr binaryAmount
        st).binaryData.matchingQueue.findIdx? (fun u => u.id == currentUserId) = none := by
      rw [List.findIdx?_eq_none_iff]
      intro e he
      simpa using habsent e he
    rw [hfi]

/-! ## Confirmation-expiry sweep (`confirmationTimerInterval` effect)

`src/Home.tsx` lines 2702-2745 and `src/unnamed/part_000` lines 3062-3090.
The two variants differ materially: the `src/Home.tsx` sweep escalates an
expired confirmation to a dispute (and puts its receiver on hold) only when
the underlying payment type starts with `upline`, silently resetting every
other payment to `unpaid`; the p0 sweep escalates every expired
confirmation whose payment exists, regardless of type, and touches no
user's hold status. -/

/-- State touched by the confirmation-expiry sweep. -/
structure ConfState where
  pendingConfirmations : List Confirmation
  paymentsData : List Payment
  disputes : List Confirmation
  allUsers : List AdminUser
deriving DecidableEq, Repr

/-- `now > c.submittedTimestamp + PAYMENT_TIMER_DURATION`. -/
def isExpiredConf (now dur : Nat) (c : Confirmation) : Bool :=
  decide (c.submittedTimestamp + dur < now)

/-- In-place update of the first list element satisfying `q`, embedding
`newPayments[newPayments.findIndex(...)] = ...`. -/
def setFirst {α : Type} (q : α → Bool) (f : α → α) : List α → List α
  | [] => []
  | x :: xs => if q x then f x :: xs else x :: setFirst q f xs

/-- The reset applied to a payment whose non-matrix confirmation expired
(also used by `handleRejectPayment` and dispute resolution in favor of the
receiver): `status: 'unpaid', transactionId: '', proof: null,
assignedTimestamp: Date.now()`. -/
def resetPayment (now : Nat) (p : Payment) : Payment :=
  { p with
    status := .unpaid
    transactionId := ""
    proof := none
    assignedTimestamp := some now }

/-- One iteration of the `for (const confirmation of expiredConfirmations)`
loop of the `src/Home.tsx` sweep, on the accumulator (payments list, new
disputes, receiver ids to put on hold). -/
def processExpiredConf (now : Nat)
    (acc : List Payment × List Confirmation × List String) (c : Confirmation) :
    List Payment × List Confirmation × List String :=
  match acc.1.find? (fun p => c.paymentId == some p.id) with
  | none => acc
  | some payment =>
    if strStartsWith payment.type "upline" then
      (setFirst (fun p => c.paymentId == some p.id)
          (fun p => { p with status := PaymentStatus.disputed }) acc.1,
        acc.2.1 ++ [c], acc.2.2 ++ [payment.receiverId])
    else
      (setFirst (fun p => c.paymentId == some p.id) (resetPayment now) acc.1,
        acc.2.1, acc.2.2)

/-- The `src/Home.tsx` confirmation-expiry sweep. -/
def confirmationTimerTick (now dur : Nat) (st : ConfState) : ConfState :=
  let expired := st.pendingConfirmations.filter (isExpiredConf now dur)
  if expired.isEmpty then st
  else
    let expiredIds := expired.map (·.id)
    let remaining := st.pendingConfirmations.filter (fun c => !(expiredIds.contains c.id))
    let folded := expired.foldl (processExpiredConf now) (st.paymentsData, [], [])
    { pendingConfirmations := remaining,
      paymentsData := folded.1,
      disputes := if folded.2.1.isEmpty then st.disputes else st.disputes ++ folded.2.1,
      allUsers :=
        if folded.2.1.isEmpty then st.allUsers
        else st.allUsers.map
          (fun u => if folded.2.2.contains u.id then { u with status := .on_hold } else u) }

/-- The p0 confirmation-expiry sweep (`src/unnamed/part_000` lines
3062-3090): every payment matched by some expired confirmation becomes
`disputed` and that confirmation is pushed to `disputes`; no type check and
no hold-marking. -/
def p0_confirmationTimerTick (now dur : Nat) (st : ConfState) : ConfState :=
  let expired := st.pendingConfirmations.filter (isExpiredConf now dur)
  if expired.isEmpty then st
  else
    let expiredIds := expired.map (·.id)
    let remaining := st.pendingConfirmations.filter (fun c => !(expiredIds.contains c.id))
    { pendingConfirmations := remaining,
      paymentsData := st.paymentsData.map
        (fun p =>
          if (expired.find? (fun ec => ec.paymentId == some p.id)).isSome
          then { p with status := PaymentStatus.disputed } else p),
      disputes := st.disputes ++
        st.paymentsData.filterMap
          (fun p => expired.find? (fun ec => ec.paymentId == some p.id)),
      allUsers := st.allUsers }

/-- The net effect of the `src/Home.tsx` sweep on a payment matched by an
expired confirmation: `disputed` for matrix (`upline*`) types, a silent
reset to `unpaid` otherwise. -/
def applyConfExpiry (now : Nat) (p : Payment) : Payment :=
  if strStartsWith p.type "upline" then { p with status := PaymentStatus.disputed }
  else resetPayment now p

/-- Whether an expired confirmation escalates to a dispute against a given
payments list: its payment is found and has a matrix (`upline*`) type. -/
def escalates (ps : List Payment) (c : Confirmation) : Bool :=
  match ps.find? (fun p => c.paymentId == some p.id) with
  | none => false
  | some p => strStartsWith p.type "upline"

/-- The receiver put on hold by an escalating confirmation, if any. -/
def escReceiver (ps : List Payment) (c : Confirmation) : Option String :=
  match ps.find? (fun p => c.paymentId == some p.id) with
  | none => none
  | some p => if strStartsWith p.type "upline" then some p.receiverId else none

/-! ### Structural lemmas for the `src/Home.tsx` sweep -/

theorem applyConfExpiry_id (now : Nat) (p : Payment) :
    (applyConfExpiry now p).id = p.id := by
  rw [applyConfExpiry]; split <;> rfl

theorem applyConfExpiry_type (now : Nat) (p : Payment) :
    (applyConfExpiry now p).type = p.type := by
  rw [applyConfExpiry]; split <;> rfl

theorem applyConfExpiry_receiverId (now : Nat) (p : Payment) :
    (applyConfExpiry now p).receiverId = p.receiverId := by
  rw [applyConfExpiry]; split <;> rfl

theorem map_if_none {α : Type} (q : α → Bool) (f : α → α) (l : List α)
    (h : ∀ x ∈ l, q x = false) : l.map (fun x => if q x then f x else x) = l := by
  induction l with
  | nil => rfl
  | cons x xs ih =>
    rw [List.map_cons, if_neg (by simp [h x (List.mem_cons_self x xs)]),
      ih (fun y hy => h y (List.mem_cons_of_mem _ hy))]

theorem setFirst_eq_map {α : Type} (q : α → Bool) (f : α → α) (l : List α)
    (hu : (l.filter q).length ≤ 1) :
    setFirst q f l = l.map (fun x => if q x then f x else x) := by
  induction l with
  | nil => rfl
  | cons x xs ih =>
    by_cases hq : q x = true
    · rw [setFirst, if_pos hq, List.map_cons, if_pos hq]
      have hnil : ∀ y ∈ xs, q y = false := by
        rw [List.filter_cons_of_pos hq] at hu
        have h0 : (xs.filter q).length = 0 := by
          simp only [List.length_cons] at hu
          omega
        intro y hy
        have := List.filter_eq_nil_iff.mp (List.length_eq_zero.mp h0) y hy
        simpa using this
      rw [map_if_none q f xs hnil]
    · rw [setFirst, if_neg hq, List.map_cons, if_neg hq,
        ih (by rwa [List.filter_cons_of_neg hq] at hu)]

theorem find?_map_idpres (x : Option String) (g : Payment → Payment)
    (hg : ∀ p, (g p).id = p.id) (ps : List Payment) :
    (ps.map g).find? (fun p => x == some p.id) =
      (ps.find? (fun p => x == some p.id)).map g := by
  induction ps with
  | nil => rfl
  | cons p ps ih =>
    rw [List.map_cons]
    by_cases hx : (x == some p.id) = true
    · rw [List.find?_cons_of_pos (p := fun q : Payment => x == some q.id) _
          (by simp only [hg]; exact hx),
        List.find?_cons_of_pos (p := fun q : Payment => x == some q.id) _ hx,
        Option.map_some']
    · rw [List.find?_cons_of_neg (p := fun q : Payment => x == some q.id) _
          (by simp only [hg]; exact hx),
        List.find?_cons_of_neg (p := fun q : Payment => x == some q.id) _ hx, ih]

theorem escalates_map (g : Payment → Payment) (hgid : ∀ p, (g p).id = p.id)
    (hgty : ∀ p, (g p).type = p.type) (ps : List Payment) (c : Confirmation) :
    escalates (ps.map g) c = escalates ps c := by
  rw [escalates, escalates, find?_map_idpres _ g hgid]
  cases ps.find? (fun p => c.paymentId == some p.id) with
  | none => rfl
  | some p => simp [hgty]

theorem escReceiver_map (g : Payment → Payment) (hgid : ∀ p, (g p).id = p.id)
    (hgty : ∀ p, (g p).type = p.type) (hgr : ∀ p, (g p).receiverId = p.receiverId)
    (ps : List Payment) (c : Confirmation) :
    escReceiver (ps.map g) c = escReceiver ps c := by
  rw [escReceiver, escReceiver, find?_map_idpres _ g hgid]
  cases ps.find? (fun p => c.paymentId == some p.id) with
  | none => rfl
  | some p => simp [hgty, hgr]

theorem payment_unique_by_id {ps : List Payment}
    (hn : (ps.map (·.id)).Nodup) {p q : Payment} (hp : p ∈ ps) (hq : q ∈ ps)
    (h : p.id = q.id) : p = q :=
  List.inj_on_of_nodup_map hn hp hq h

theorem filter_id_len (v : String) (ps : List Payment)
    (hn : (ps.map (·.id)).Nodup) :
    (ps.filter (fun p => (some v : Option String) == some p.id)).length ≤ 1 := by
  induction ps with
  | nil => simp
  | cons p ps ih =>
    rw [List.map_cons, List.nodup_cons] at hn
    by_cases hv : ((some v : Option String) == some p.id) = true
    · rw [List.filter_cons_of_pos (p := fun x : Payment => (some v : Option String) == some x.id) hv]
      have hveq : v = p.id := by simpa using hv
      have hnil : ps.filter (fun x => (some v : Option String) == some x.id) = [] := by
        rw [List.filter_eq_nil_iff]
        intro x hx
        simp only [beq_iff_eq, Option.some_inj]
        intro hxe
        exact hn.1 (by rw [← hveq, hxe]; exact List.mem_map_of_mem (·.id) hx)
      rw [hnil]
      simp
    · rw [List.filter_cons_of_neg (p := fun x : Payment => (some v : Option String) == some x.id) hv]
      exact ih hn.2

theorem find?_eq_some_of_mem_nodup {ps : List Payment}
    (hn : (ps.map (·.id)).Nodup) {p : Payment} (hp : p ∈ ps) :
    ps.find? (fun x => (some p.id : Option String) == some x.id) = some p := by
  induction ps with
  | nil => simp at hp
  | cons x xs ih =>
    rw [List.map_cons, List.nodup_cons] at hn
    rcases List.mem_cons.mp hp with hpx | hpxs
    · subst hpx
      exact List.find?_cons_of_pos (p := fun y : Payment => (some p.id : Option String) == some y.id)
        _ (by simp)
    · have hneg : ¬((fun y => (some p.id : Option String) == some y.id) x = true) := by
        simp only [beq_iff_eq, Option.some_inj]
        intro hxe
        exact hn.1 (hxe ▸ List.mem_map_of_mem (·.id) hpxs)
      rw [List.find?_cons_of_neg (p := fun y : Payment => (some p.id : Option String) == some y.id)
        _ hneg]
      exact ih hn.2 hpxs

/-- The transform a single expired confirmation applies to each payment of
the list: the matched payment gets the type-dependent expiry outcome, every
other payment is untouched. -/
def confMatchTransform (now : Nat) (c : Confirmation) (p : Payment) : Payment :=
  if c.paymentId == some p.id then applyConfExpiry now p else p

theorem confMatchTransform_id (now : Nat) (c : Confirmation) (p : Payment) :
    (confMatchTransform now c p).id = p.id := by
  rw [confMatchTransform]
  split
  · exact applyConfExpiry_id now p
  · rfl

theorem confMatchTransform_type (now : Nat) (c : Confirmation) (p : Payment) :
    (confMatchTransform now c p).type = p.type := by
  rw [confMatchTransform]
  split
  · exact applyConfExpiry_type now p
  · rfl

theorem confMatchTransform_receiverId (now : Nat) (c : Confirmation) (p : Payment) :
    (confMatchTransform now c p).receiverId = p.receiverId := by
  rw [confMatchTransform]
  split
  · exact applyConfExpiry_receiverId now p
  · rfl

/-- Closed form of the `src/Home.tsx` sweep loop: under duplicate-free
payment ids and duplicate-free target payment ids among the processed
confirmations, each matched payment receives its type-dependent outcome,
the escalating confirmations are appended to the dispute accumulator in
order, and their receivers to the hold accumulator. -/
theorem foldl_processExpiredConf (now : Nat) (cs : List Confirmation) :
    ∀ (ps : List Payment) (ds : List Confirmation) (hold : List String),
      (ps.map (·.id)).Nodup →
      (cs.filterMap (·.paymentId)).Nodup →
      cs.foldl (processExpiredConf now) (ps, ds, hold) =
        (ps.map (fun p => if cs.any (fun c => c.paymentId == some p.id)
            then applyConfExpiry now p else p),
          ds ++ cs.filter (escalates ps),
          hold ++ cs.filterMap (escReceiver ps)) := by
  induction cs with
  | nil =>
    intro ps ds hold hpn hcn
    simp
  | cons c cs ih =>
    intro ps ds hold hpn hcn
    rw [List.foldl_cons]
    have hgid : ∀ p, (confMatchTransform now c p).id = p.id := confMatchTransform_id now c
    have hgty : ∀ p, (confMatchTransform now c p).type = p.type :=
      confMatchTransform_type now c
    have hgrc : ∀ p, (confMatchTransform now c p).receiverId = p.receiverId :=
      confMatchTransform_receiverId now c
    have hpn1 : ((ps.map (confMatchTransform now c)).map (·.id)).Nodup := by
      rw [List.map_map]
      have : ((fun p : Payment => p.id) ∘ confMatchTransform now c) =
          fun p : Payment => p.id := funext fun p => hgid p
      rw [this]
      exact hpn
    cases hfind : ps.find? (fun p => c.paymentId == some p.id) with
    | none =>
      have hnomatch : ∀ p ∈ ps, (c.paymentId == some p.id) = false := by
        intro p hp
        have := List.find?_eq_none.mp hfind p hp
        simpa using this
      have hstep : processExpiredConf now (ps, ds, hold) c = (ps, ds, hold) := by
        rw [processExpiredConf]
        rw [hfind]
      have hcn2 : (cs.filterMap (·.paymentId)).Nodup := by
        rw [List.filterMap_cons] at hcn
        rcases hx : c.paymentId with _ | v
        · rwa [hx] at hcn
        · rw [hx] at hcn
          exact (List.nodup_cons.mp hcn).2
      rw [hstep, ih ps ds hold hpn hcn2]
      refine congrArg₂ Prod.mk ?_ (congrArg₂ Prod.mk ?_ ?_)
      · apply List.map_congr_left
        intro p hp
        rw [List.any_cons, hnomatch p hp, Bool.false_or]
      · have hesc : escalates ps c = false := by
          rw [escalates, hfind]
        rw [List.filter_cons_of_neg (by rw [hesc]; exact Bool.false_ne_true)]
      · rw [List.filterMap_cons]
        have hrec : escReceiver ps c = none := by
          rw [escReceiver, hfind]
        rw [hrec]
    | some payment =>
      have hpred : (c.paymentId == some payment.id) = true :=
        List.find?_some (p := fun p : Payment => c.paymentId == some p.id) hfind
      have hmem : payment ∈ ps :=
        List.mem_of_find?_eq_some (p := fun p : Payment => c.paymentId == some p.id) hfind
      have hv : c.paymentId = some payment.id := by simpa using hpred
      have huniq : ∀ p ∈ ps, (c.paymentId == some p.id) = true → p = payment := by
        intro p hp hpr
        apply payment_unique_by_id hpn hp hmem
        have h1 : c.paymentId = some p.id := by simpa using hpr
        rw [hv] at h1
        exact (Option.some_inj.mp h1).symm
      have hflen : (ps.filter (fun p => c.paymentId == some p.id)).length ≤ 1 := by
        rw [hv]
        exact filter_id_len payment.id ps hpn
      have hcn2 : (cs.filterMap (·.paymentId)).Nodup ∧
          (some payment.id) ∉ cs.map (·.paymentId) := by
        rw [List.filterMap_cons, hv] at hcn
        rcases List.nodup_cons.mp hcn with ⟨hnotin, hnd⟩
        refine ⟨hnd, ?_⟩
        intro hmem2
        rcases List.mem_map.mp hmem2 with ⟨c2, hc2, hc2e⟩
        exact hnotin (List.mem_filterMap.mpr ⟨c2, hc2, hc2e⟩)
      have hcsnone : ∀ p : Payment, (c.paymentId == some p.id) = true →
          (cs.any (fun c2 => c2.paymentId == some p.id)) = false := by
        intro p hpr
        have hpid : c.paymentId = some p.id := by simpa using hpr
        rw [hv] at hpid
        rw [Bool.eq_false_iff]
        intro hany
        rcases List.any_eq_true.mp hany with ⟨c2, hc2, hc2m⟩
        have : c2.paymentId = some p.id := by simpa using hc2m
        exact hcn2.2 (by
          rw [hpid, ← this]
          exact List.mem_map_of_mem (·.paymentId) hc2)
      -- the loop body rewrites the payment list through `setFirst`, which
      -- under the uniqueness facts is the same as mapping the single-
      -- confirmation transform over the whole list
      have hsetFirst : ∀ f : Payment → Payment,
          (∀ p ∈ ps, (c.paymentId == some p.id) = true → f p = applyConfExpiry now p) →
          setFirst (fun p => c.paymentId == some p.id) f ps =
            ps.map (confMatchTransform now c) := by
        intro f hf
        rw [setFirst_eq_map _ _ _ hflen]
        apply List.map_congr_left
        intro p hp
        rw [confMatchTransform]
        by_cases hm : (c.paymentId == some p.id) = true
        · rw [if_pos hm, if_pos hm, hf p hp hm]
        · rw [if_neg hm, if_neg hm]
      by_cases hup : strStartsWith payment.type "upline" = true
      · have hstep : processExpiredConf now (ps, ds, hold) c =
            (ps.map (confMatchTransform now c), ds ++ [c], hold ++ [payment.receiverId]) := by
          rw [processExpiredConf]
          rw [hfind]
          simp only [hup, if_true]
          refine congrArg₂ Prod.mk ?_ rfl
          apply hsetFirst
          intro p hp hm
          have hpe := huniq p hp hm
          subst hpe
          rw [applyConfExpiry, if_pos hup]
        rw [hstep, ih _ _ _ hpn1 hcn2.1]
        refine congrArg₂ Prod.mk ?_ (congrArg₂ Prod.mk ?_ ?_)
        · rw [List.map_map]
          apply List.map_congr_left
          intro p hp
          simp only [Function.comp]
          rw [hgid p, List.any_cons]
          by_cases hm : (c.paymentId == some p.id) = true
          · rw [hm, Bool.true_or, hcsnone p hm, if_neg (by exact Bool.false_ne_true),
              confMatchTransform, if_pos hm, if_pos (Eq.refl true)]
          · rw [Bool.eq_false_iff.mpr hm, Bool.false_or, confMatchTransform, if_neg hm]
        · have hesc : escalates ps c = true := by
            simp [escalates, hfind, hup]
          rw [List.filter_cons_of_pos (by rw [hesc]), List.append_assoc]
          refine congrArg _ ?_
          refine congrArg₂ List.cons rfl ?_
          apply List.filter_congr
          intro c2 _
          exact (escalates_map (confMatchTransform now c) hgid hgty ps c2)
        · have hrec : escReceiver ps c = some payment.receiverId := by
            simp [escReceiver, hfind, hup]
          rw [List.filterMap_cons, hrec, List.append_assoc]
          refine congrArg _ ?_
          refine congrArg₂ List.cons rfl ?_
          have hcong : ∀ c2 ∈ cs, escReceiver (ps.map (confMatchTransform now c)) c2 =
              escReceiver ps c2 := fun c2 _ =>
            escReceiver_map (confMatchTransform now c) hgid hgty hgrc ps c2
          exact List.filterMap_congr hcong
      · have hstep : processExpiredConf now (ps, ds, hold) c =
            (ps.map (confMatchTransform now c), ds, hold) := by
          rw [processExpiredConf]
          rw [hfind]
          simp only [hup, if_false]
          refine congrArg₂ Prod.mk ?_ rfl
          apply hsetFirst
          intro p hp hm
          have hpe := huniq p hp hm
          subst hpe
          rw [applyConfExpiry, if_neg hup]
        rw [hstep, ih _ _ _ hpn1 hcn2.1]
        refine congrArg₂ Prod.mk ?_ (congrArg₂ Prod.mk ?_ ?_)
        · rw [List.map_map]
          apply List.map_congr_left
          intro p hp
          simp only [Function.comp]
          rw [hgid p, List.any_cons]
          by_cases hm : (c.paymentId == some p.id) = true
          · rw [hm, Bool.true_or, hcsnone p hm, if_neg (by exact Bool.false_ne_true),
              confMatchTransform, if_pos hm, if_pos (Eq.refl true)]
          · rw [Bool.eq_false_iff.mpr hm, Bool.false_or, confMatchTransform, if_neg hm]
        · have hesc : escalates ps c = false := by
            simp [escalates, hfind, hup]
          rw [List.filter_cons_of_neg (by rw [hesc]; exact Bool.false_ne_true)]
          refine congrArg _ ?_
          apply List.filter_congr
          intro c2 _
          exact (escalates_map (confMatchTransform now c) hgid hgty ps c2)
        · have hrec : escReceiver ps c = none := by
            simp [escReceiver, hfind, hup]
          rw [List.filterMap_cons, hrec]
          refine congrArg _ ?_
          have hcong : ∀ c2 ∈ cs, escReceiver (ps.map (confMatchTransform now c)) c2 =
              escReceiver ps c2 := fun c2 _ =>
            escReceiver_map (confMatchTransform now c) hgid hgty hgrc ps c2
          exact List.filterMap_congr hcong

/-- Removal component of the `src/Home.tsx` sweep: with duplicate-free
confirmation ids, removing the collected expired ids is the same as keeping
exactly the non-expired confirmations. -/
theorem tick_pending_eq (now dur : Nat) (st : ConfState)
    (hcid : (st.pendingConfirmations.map (·.id)).Nodup) :
    (confirmationTimerTick now dur st).pendingConfirmations =
      st.pendingConfirmations.filter (fun c => !(isExpiredConf now dur c)) := by
  rw [confirmationTimerTick]
  by_cases hE : (st.pendingConfirmations.filter (isExpiredConf now dur)).isEmpty = true
  · rw [if_pos hE]
    have hnil : st.pendingConfirmations.filter (isExpiredConf now dur) = [] :=
      List.isEmpty_iff.mp hE
    have hall : ∀ c ∈ st.pendingConfirmations, isExpiredConf now dur c = false := by
      intro c hc
      have := List.filter_eq_nil_iff.mp hnil c hc
      simpa using this
    exact (List.filter_eq_self.mpr (fun c hc => by rw [hall c hc]; rfl)).symm
  · rw [if_neg hE]
    apply List.filter_congr
    intro c hc
    have hcontains :
        ((st.pendingConfirmations.filter (isExpiredConf now dur)).map (·.id)).contains c.id =
          isExpiredConf now dur c := by
      by_cases hexp : isExpiredConf now dur c = true
      · rw [hexp]
        exact List.elem_eq_true_of_mem
          (List.mem_map_of_mem _ (List.mem_filter.mpr ⟨hc, hexp⟩))
      · rw [Bool.eq_false_iff.mpr hexp]
        rw [Bool.eq_false_iff]
        intro hcont
        rcases List.mem_map.mp (List.mem_of_elem_eq_true hcont) with ⟨c2, hc2, hc2id⟩
        rcases List.mem_filter.mp hc2 with ⟨hc2p, hc2e⟩
        have hceq : c2 = c := List.inj_on_of_nodup_map hcid hc2p hc hc2id
        rw [hceq] at hc2e
        exact hexp hc2e
    rw [hcontains]

/-- Payments component of the `src/Home.tsx` sweep as a single map. -/
theorem tick_payments_eq (now dur : Nat) (st : ConfState)
    (hpn : (st.paymentsData.map (·.id)).Nodup)
    (hcn : ((st.pendingConfirmations.filter (isExpiredConf now dur)).filterMap
        (·.paymentId)).Nodup) :
    (confirmationTimerTick now dur st).paymentsData =
      st.paymentsData.map (fun p =>
        if (st.pendingConfirmations.filter (isExpiredConf now dur)).any
            (fun c => c.paymentId == some p.id)
        then applyConfExpiry now p else p) := by
  rw [confirmationTimerTick]
  by_cases hE : (st.pendingConfirmations.filter (isExpiredConf now dur)).isEmpty = true
  · rw [if_pos hE]
    rw [List.isEmpty_iff.mp hE]
    simp
  · rw [if_neg hE]
    rw [foldl_processExpiredConf now _ st.paymentsData [] [] hpn hcn]

/-- Disputes component of the `src/Home.tsx` sweep: exactly the escalating
expired confirmations are appended, in order. -/
theorem tick_disputes_eq (now dur : Nat) (st : ConfState)
    (hpn : (st.paymentsData.map (·.id)).Nodup)
    (hcn : ((st.pendingConfirmations.filter (isExpiredConf now dur)).filterMap
        (·.paymentId)).Nodup) :
    (confirmationTimerTick now dur st).disputes =
      st.disputes ++ (st.pendingConfirmations.filter (isExpiredConf now dur)).filter
        (escalates st.paymentsData) := by
  rw [confirmationTimerTick]
  by_cases hE : (st.pendingConfirmations.filter (isExpiredConf now dur)).isEmpty = true
  · rw [if_pos hE]
    rw [List.isEmpty_iff.mp hE]
    simp
  · rw [if_neg hE]
    rw [foldl_processExpiredConf now _ st.paymentsData [] [] hpn hcn]
    simp only [List.nil_append]
    by_cases hD : ((st.pendingConfirmations.filter (isExpiredConf now dur)).filter
        (escalates st.paymentsData)).isEmpty = true
    · rw [if_pos hD, List.isEmpty_iff.mp hD, List.append_nil]
    · rw [if_neg hD]

/-- Users component of the `src/Home.tsx` sweep: exactly the receivers of
escalating confirmations are put on hold (when any escalation occurred). -/
theorem tick_users_eq (now dur : Nat) (st : ConfState)
    (hpn : (st.paymentsData.map (·.id)).Nodup)
    (hcn : ((st.pendingConfirmations.filter (isExpiredConf now dur)).filterMap
        (·.paymentId)).Nodup) :
    (confirmationTimerTick now dur st).allUsers =
      if ((st.pendingConfirmations.filter (isExpiredConf now dur)).filter
          (escalates st.paymentsData)).isEmpty
      then st.allUsers
      else st.allUsers.map (fun u =>
        if ((st.pendingConfirmations.filter (isExpiredConf now dur)).filterMap
            (escReceiver st.paymentsData)).contains u.id
        then { u with status := UserStatus.on_hold } else u) := by
  rw [confirmationTimerTick]
  by_cases hE : (st.pendingConfirmations.filter (isExpiredConf now dur)).isEmpty = true
  · rw [if_pos hE]
    rw [List.isEmpty_iff.mp hE]
    simp
  · rw [if_neg hE]
    rw [foldl_processExpiredConf now _ st.paymentsData [] [] hpn hcn]
    simp only [List.nil_append]

/-- Removal component of the p0 sweep (same as the `src/Home.tsx` one). -/
theorem p0_tick_pending_eq (now dur : Nat) (st : ConfState)
    (hcid : (st.pendingConfirmations.map (·.id)).Nodup) :
    (p0_confirmationTimerTick now dur st).pendingConfirmations =
      st.pendingConfirmations.filter (fun c => !(isExpiredConf now dur c)) := by
  rw [p0_confirmationTimerTick]
  by_cases hE : (st.pendingConfirmations.filter (isExpiredConf now dur)).isEmpty = true
  · rw [if_pos hE]
    have hnil : st.pendingConfirmations.filter (isExpiredConf now dur) = [] :=
      List.isEmpty_iff.mp hE
    have hall : ∀ c ∈ st.pendingConfirmations, isExpiredConf now dur c = false := by
      intro c hc
      have := List.filter_eq_nil_iff.mp hnil c hc
      simpa using this
    exact (List.filter_eq_self.mpr (fun c hc => by rw [hall c hc]; rfl)).symm
  · rw [if_neg hE]
    apply List.filter_congr
    intro c hc
    have hcontains :
        ((st.pendingConfirmations.filter (isExpiredConf now dur)).map (·.id)).contains c.id =
          isExpiredConf now dur c := by
      by_cases hexp : isExpiredConf now dur c = true
      · rw [hexp]
        exact List.elem_eq_true_of_mem
          (List.mem_map_of_mem _ (List.mem_filter.mpr ⟨hc, hexp⟩))
      · rw [Bool.eq_false_iff.mpr hexp]
        rw [Bool.eq_false_iff]
        intro hcont
        rcases List.mem_map.mp (List.mem_of_elem_eq_true hcont) with ⟨c2, hc2, hc2id⟩
        rcases List.mem_filter.mp hc2 with ⟨hc2p, hc2e⟩
        have hceq : c2 = c := List.inj_on_of_nodup_map hcid hc2p hc hc2id
        rw [hceq] at hc2e
        exact hexp hc2e
    rw [hcontains]

/-- Payments component of the p0 sweep: every payment matched by some
expired confirmation is set to `disputed`, whatever its type. -/
theorem p0_tick_payments_eq (now dur : Nat) (st : ConfState) :
    (p0_confirmationTimerTick now dur st).paymentsData =
      st.paymentsData.map (fun p =>
        if ((st.pendingConfirmations.filter (isExpiredConf now dur)).find?
            (fun ec => ec.paymentId == some p.id)).isSome
        then { p with status := PaymentStatus.disputed } else p) := by
  rw [p0_confirmationTimerTick]
  by_cases hE : (st.pendingConfirmations.filter (isExpiredConf now dur)).isEmpty = true
  · rw [if_pos hE]
    rw [List.isEmpty_iff.mp hE]
    simp
  · rw [if_neg hE]

/-- Disputes component of the p0 sweep. -/
theorem p0_tick_disputes_eq (now dur : Nat) (st : ConfState) :
    (p0_confirmationTimerTick now dur st).disputes =
      st.disputes ++ st.paymentsData.filterMap
        (fun p => (st.pendingConfirmations.filter (isExpiredConf now dur)).find?
          (fun ec => ec.paymentId == some p.id)) := by
  rw [p0_confirmationTimerTick]
  by_cases hE : (st.pendingConfirmations.filter (isExpiredConf now dur)).isEmpty = true
  · rw [if_pos hE]
    rw [List.isEmpty_iff.mp hE]
    simp
  · rw [if_neg hE]

/-- The p0 sweep never touches user hold status. -/
theorem p0_tick_users_eq (now dur : Nat) (st : ConfState) :
    (p0_confirmationTimerTick now dur st).allUsers = st.allUsers := by
  rw [p0_confirmationTimerTick]
  by_cases hE : (st.pendingConfirmations.filter (isExpiredConf now dur)).isEmpty = true
  · rw [if_pos hE]
  · rw [if_neg hE]

/-- Among confirmations with duplicate-free target payment ids, `find?` by
target id returns exactly the member with that target. -/
theorem conf_find?_eq_some (v : String) (c : Confirmation) :
    ∀ E : List Confirmation, (E.filterMap (·.paymentId)).Nodup → c ∈ E →
      c.paymentId = some v →
      E.find? (fun ec => ec.paymentId == some v) = some c := by
  intro E
  induction E with
  | nil => intro _ hc _; simp at hc
  | cons x xs ih =>
    intro hcn hc hv
    rcases List.mem_cons.mp hc with hcx | hcxs
    · subst hcx
      exact List.find?_cons_of_pos (p := fun ec : Confirmation => ec.paymentId == some v) _
        (by simp [hv])
    · have hxne : ¬((x.paymentId == some v) = true) := by
        intro hxeq
        have hxv : x.paymentId = some v := by simpa using hxeq
        rw [List.filterMap_cons, hxv] at hcn
        rcases List.nodup_cons.mp hcn with ⟨hnotin, _⟩
        exact hnotin (List.mem_filterMap.mpr ⟨c, hcxs, hv⟩)
      rw [List.find?_cons_of_neg (p := fun ec : Confirmation => ec.paymentId == some v) _ hxne]
      refine ih ?_ hcxs hv
      rw [List.filterMap_cons] at hcn
      rcases hx : x.paymentId with _ | w
      · rwa [hx] at hcn
      · rw [hx] at hcn
        exact (List.nodup_cons.mp hcn).2

/-- C3 (amended): both periodic sweeps remove exactly the expired
confirmations from the pending set.  In the `src/Home.tsx` sweep an expired
confirmation whose payment exists escalates to a Dispute, marks the
payment `disputed` and puts its receiver on hold exactly when the payment
type is a matrix (`upline*`) slot, while every other expired confirmation
silently resets its payment to `unpaid` (transactionId and proof cleared,
fresh `assignedTimestamp`) and creates no dispute; payments targeted by no
expired confirmation are unchanged.  In the p0 variant, however, every
expired confirmation whose payment exists escalates to a Dispute and marks
the payment `disputed` regardless of its type, and nobody is put on
hold. -/
theorem C3_confirmation_expiry (now dur : Nat) (st : ConfState)
    (hcid : (st.pendingConfirmations.map (·.id)).Nodup)
    (hpn : (st.paymentsData.map (·.id)).Nodup)
    (hcn : ((st.pendingConfirmations.filter (isExpiredConf now dur)).filterMap
        (·.paymentId)).Nodup) :
    (confirmationTimerTick now dur st).pendingConfirmations =
      st.pendingConfirmations.filter (fun c => !(isExpiredConf now dur c)) ∧
    (p0_confirmationTimerTick now dur st).pendingConfirmations =
      st.pendingConfirmations.filter (fun c => !(isExpiredConf now dur c)) ∧
    (∀ c ∈ st.pendingConfirmations, isExpiredConf now dur c = true →
      ∀ p ∈ st.paymentsData, c.paymentId = some p.id →
        (strStartsWith p.type "upline" = true →
          { p with status := PaymentStatus.disputed } ∈
              (confirmationTimerTick now dur st).paymentsData ∧
            c ∈ (confirmationTimerTick now dur st).disputes ∧
            ∀ u ∈ st.allUsers, u.id = p.receiverId →
              { u with status := UserStatus.on_hold } ∈
                (confirmationTimerTick now dur st).allUsers) ∧
        (strStartsWith p.type "upline" = false →
          resetPayment now p ∈ (confirmationTimerTick now dur st).paymentsData ∧
            (c ∉ st.disputes → c ∉ (confirmationTimerTick now dur st).disputes))) ∧
    (∀ p ∈ st.paymentsData,
      (∀ c ∈ st.pendingConfirmations, isExpiredConf now dur c = true →
        c.paymentId ≠ some p.id) →
      p ∈ (confirmationTimerTick now dur st).paymentsData) ∧
    (∀ c ∈ st.pendingConfirmations, isExpiredConf now dur c = true →
      ∀ p ∈ st.paymentsData, c.paymentId = some p.id →
        { p with status := PaymentStatus.disputed } ∈
            (p0_confirmationTimerTick now dur st).paymentsData ∧
          c ∈ (p0_confirmationTimerTick now dur st).disputes) ∧
    (p0_confirmationTimerTick now dur st).allUsers = st.allUsers := by
  refine ⟨tick_pending_eq now dur st hcid, p0_tick_pending_eq now dur st hcid,
    ?_, ?_, ?_, p0_tick_users_eq now dur st⟩
  · intro c hc hexp p hp hpid
    have hcE : c ∈ st.pendingConfirmations.filter (isExpiredConf now dur) :=
      List.mem_filter.mpr ⟨hc, hexp⟩
    have hmatch : (c.paymentId == some p.id) = true := by rw [hpid]; simp
    have hany : ((st.pendingConfirmations.filter (isExpiredConf now dur)).any
        (fun c2 => c2.paymentId == some p.id)) = true :=
      List.any_eq_true.mpr ⟨c, hcE, hmatch⟩
    have hfind : st.paymentsData.find? (fun x => c.paymentId == some x.id) = some p := by
      rw [hpid]
      exact find?_eq_some_of_mem_nodup hpn hp
    constructor
    · intro hup
      refine ⟨?_, ?_, ?_⟩
      · rw [tick_payments_eq now dur st hpn hcn]
        refine List.mem_map.mpr ⟨p, hp, ?_⟩
        rw [if_pos hany, applyConfExpiry, if_pos hup]
      · rw [tick_disputes_eq now dur st hpn hcn]
        refine List.mem_append_right _ (List.mem_filter.mpr ⟨hcE, ?_⟩)
        simp [escalates, hfind, hup]
      · intro u hu huid
        rw [tick_users_eq now dur st hpn hcn]
        have hesc : escalates st.paymentsData c = true := by
          simp [escalates, hfind, hup]
        have hne : ¬(((st.pendingConfirmations.filter (isExpiredConf now dur)).filter
            (escalates st.paymentsData)).isEmpty = true) := by
          intro hempty
          have := List.isEmpty_iff.mp hempty
          have hcmem : c ∈ (st.pendingConfirmations.filter (isExpiredConf now dur)).filter
              (escalates st.paymentsData) := List.mem_filter.mpr ⟨hcE, hesc⟩
          rw [this] at hcmem
          simp at hcmem
        rw [if_neg hne]
        refine List.mem_map.mpr ⟨u, hu, ?_⟩
        have hrecv : escReceiver st.paymentsData c = some p.receiverId := by
          simp [escReceiver, hfind, hup]
        have hcont : (((st.pendingConfirmations.filter (isExpiredConf now dur)).filterMap
            (escReceiver st.paymentsData)).contains u.id) = true := by
          rw [huid]
          exact List.elem_eq_true_of_mem
            (List.mem_filterMap.mpr ⟨c, hcE, hrecv⟩)
        rw [if_pos hcont]
    · intro hup
      constructor
      · rw [tick_payments_eq now dur st hpn hcn]
        refine List.mem_map.mpr ⟨p, hp, ?_⟩
        rw [if_pos hany, applyConfExpiry,
          if_neg (by rw [hup]; exact Bool.false_ne_true)]
      · intro hnotin hmem
        rw [tick_disputes_eq now dur st hpn hcn] at hmem
        rcases List.mem_append.mp hmem with hmem | hmem
        · exact hnotin hmem
        · have hesc := (List.mem_filter.mp hmem).2
          simp [escalates, hfind, hup] at hesc
  · intro p hp hno
    rw [tick_payments_eq now dur st hpn hcn]
    refine List.mem_map.mpr ⟨p, hp, ?_⟩
    rw [if_neg ?_]
    intro hany
    rcases List.any_eq_true.mp hany with ⟨c, hcE, hcm⟩
    rcases List.mem_filter.mp hcE with ⟨hcp, hce⟩
    exact hno c hcp hce (by simpa using hcm)
  · intro c hc hexp p hp hpid
    have hcE : c ∈ st.pendingConfirmations.filter (isExpiredConf now dur) :=
      List.mem_filter.mpr ⟨hc, hexp⟩
    have hfindc : (st.pendingConfirmations.filter (isExpiredConf now dur)).find?
        (fun ec => ec.paymentId == some p.id) = some c :=
      conf_find?_eq_some p.id c _ hcn hcE hpid
    constructor
    · rw [p0_tick_payments_eq now dur st]
      refine List.mem_map.mpr ⟨p, hp, ?_⟩
      rw [if_pos (by rw [hfindc]; rfl)]
    · rw [p0_tick_disputes_eq now dur st]
      exact List.mem_append_right _ (List.mem_filterMap.mpr ⟨p, hp, hfindc⟩)

/-- Confirmation on a binary-type payment that has been pending longer than
the timer; its receiver exists and is active. -/
def cexC3Conf : Confirmation :=
  { id := "conf_1", paymentId := some "pay_bin", senderName := "S", amount := 500,
    transactionId := "tx1", proof := "proof1", date := "d", type := "2. Binary",
    submittedTimestamp := 0, receiverId := "usr_r", paymentTitle := "2. Binary" }

/-- The pending binary-type payment behind `cexC3Conf`. -/
def cexC3Payment : Payment :=
  { id := "pay_bin", title := "2. Binary", amount := 500, type := "binary",
    status := .pending, transactionId := "tx1", proof := some "proof1",
    assignedTimestamp := some 0, receiverId := "usr_r" }

/-- State holding exactly that confirmation and payment. -/
def cexC3State : ConfState :=
  { pendingConfirmations := [cexC3Conf], paymentsData := [cexC3Payment],
    disputes := [],
    allUsers := [{ id := "usr_r", name := "R", status := .active }] }

/-- C3 as stated is false of the p0 sweep: an expired confirmation on a
`binary`-type (non-upline) payment is escalated to a Dispute and the
payment is marked `disputed`, instead of being silently reset to
`unpaid`. -/
theorem C3_confirmation_expiry_counterexample :
    strStartsWith cexC3Payment.type "upline" = false ∧
    isExpiredConf 7200001 7200000 cexC3Conf = true ∧
    (p0_confirmationTimerTick 7200001 7200000 cexC3State).paymentsData.map (·.status) =
      [PaymentStatus.disputed] ∧
    (p0_confirmationTimerTick 7200001 7200000 cexC3State).disputes = [cexC3Conf] := by
  decide

/-! ## Payment submission (`handleSubmitPayment` and its UI boundary)

`src/Home.tsx` lines 2757-2771 (the handler), line 817 (`canSubmit`) and
lines 876, 930-934 (the submit button is rendered only while
`payment.status === 'unpaid'`, is disabled unless `canSubmit`, and for the
crypto method routes to auto-verify instead of submission).
`src/unnamed/part_000` lines 3097-3116 are the same handler. -/

/-- State touched by submission and rejection. -/
structure SubmitState where
  paymentsData : List Payment
  pendingConfirmations : List Confirmation
deriving DecidableEq, Repr

/-- `canSubmit` (`src/Home.tsx` line 817): crypto needs a transaction hash,
other methods need a transaction id and an uploaded proof; the JS
truthiness tests reject empty strings and `null`. -/
def canSubmit (isCrypto : Bool) (p : Payment) : Bool :=
  if isCrypto then strTruthy p.transactionId
  else strTruthy p.transactionId && strOptTruthy p.proof

/-- The confirmation record created on submission (`payment.proof!` is the
non-null assertion on the proof). -/
def newConfirmation (now : Nat) (nowStr senderName : String) (payment : Payment) :
    Confirmation :=
  { id := "conf_" ++ Nat.repr now,
    paymentId := some payment.id,
    senderName := senderName,
    amount := payment.amount,
    transactionId := payment.transactionId,
    proof := payment.proof.getD "",
    date := nowStr,
    type := payment.title,
    submittedTimestamp := now,
    receiverId := payment.receiverId,
    paymentTitle := payment.title }

/-- `handleSubmitPayment`: mark the payment `pending` and append one
confirmation. -/
def handleSubmitPayment (now : Nat) (nowStr senderName : String) (payment : Payment)
    (st : SubmitState) : SubmitState :=
  { paymentsData := st.paymentsData.map
      (fun p => if p.id = payment.id then { p with status := .pending } else p),
    pendingConfirmations := st.pendingConfirmations ++
      [newConfirmation now nowStr senderName payment] }

/-- The submit operation as reachable through the UI boundary: the handler
runs only when the payment exists, its status is `unpaid` (the form is
rendered only then) and `canSubmit` holds for the non-crypto method (the
crypto button calls auto-verify, not submission); otherwise nothing
happens. -/
def submitPaymentAction (now : Nat) (nowStr senderName : String) (pid : String)
    (st : SubmitState) : SubmitState :=
  match st.paymentsData.find? (fun p => p.id == pid) with
  | none => st
  | some payment =>
    if payment.status = .unpaid ∧ canSubmit false payment = true
    then handleSubmitPayment now nowStr senderName payment st
    else st

/-! ## Rejection (`handleRejectPayment`)

`src/Home.tsx` lines 2822-2827 and `src/unnamed/part_000` lines 3191-3199
(identical): remove the confirmation and reset the underlying payment. -/

/-- `handleRejectPayment`. -/
def handleRejectPayment (now : Nat) (confirmationId : String) (st : SubmitState) :
    SubmitState :=
  match st.pendingConfirmations.find? (fun c => c.id == confirmationId) with
  | none => st
  | some confirmation =>
    { pendingConfirmations :=
        st.pendingConfirmations.filter (fun c => !(c.id == confirmationId)),
      paymentsData := st.paymentsData.map
        (fun p => if confirmation.paymentId == some p.id then resetPayment now p else p) }

/-! ## Crypto auto-verification (`handleAutoVerify`)

`src/Home.tsx` lines 2773-2796: the payment is marked `verifying`; a first
3000 ms `setTimeout` resolves with `Math.random() > 0.1` (embedded as the
injected `isSuccess`): success marks it `confirmed` and prepends a ledger
transaction, failure marks it `failed` and a second 3000 ms `setTimeout`
resets it to `unpaid` with the transaction id cleared.
`src/unnamed/part_000` lines 3118-3161 differ: a missing crypto
configuration fails closed (no verification starts; an error notification
is emitted and the payment is reset after a delay), and the failure path
emits an error notification and resets the payment directly from
`verifying` to `unpaid` without ever assigning `failed`. -/

/-- State touched by the `src/Home.tsx` auto-verify flow. -/
structure VerifyState where
  paymentsData : List Payment
  transactionsData : List Transaction
deriving DecidableEq, Repr

/-- Immediate effect of `handleAutoVerify`: mark the payment `verifying`. -/
def handleAutoVerifyStart (payment : Payment) (st : VerifyState) : VerifyState :=
  { st with
    paymentsData := st.paymentsData.map
      (fun p => if p.id = payment.id then { p with status := .verifying } else p) }

/-- The ledger transaction appended on successful auto-verification. -/
def autoVerifiedTx (nowStr : String) (payment : Payment) : Transaction :=
  { date := nowStr, type := payment.type, details := "Auto-verified: " ++ payment.title,
    amount := payment.amount, status := "confirmed" }

/-- The first `setTimeout` callback of `handleAutoVerify`, with the random
outcome injected as `isSuccess`. -/
def handleAutoVerifyResolve (isSuccess : Bool) (nowStr : String) (payment : Payment)
    (st : VerifyState) : VerifyState :=
  if isSuccess then
    { paymentsData := st.paymentsData.map
        (fun p => if p.id = payment.id then { p with status := .confirmed } else p),
      transactionsData := autoVerifiedTx nowStr payment :: st.transactionsData }
  else
    { st with
      paymentsData := st.paymentsData.map
        (fun p => if p.id = payment.id then { p with status := .failed } else p) }

/-- The second `setTimeout` callback of the failure branch: back to
`unpaid` with the transaction id cleared (the proof is kept). -/
def handleAutoVerifyFailReset (payment : Payment) (st : VerifyState) : VerifyState :=
  { st with
    paymentsData := st.paymentsData.map
      (fun p => if p.id = payment.id
        then { p with status := .unpaid, transactionId := "" } else p) }

/-- State touched by the p0 auto-verify flow (it also emits error
notifications). -/
structure P0VerifyState where
  paymentsData : List Payment
  transactionsData : List Transaction
  notifications : List Notification
deriving DecidableEq, Repr

/-- The p0 configuration guard: `systemConfig.enableCryptoVerification`,
`bscScanApiKey` and `cryptoReceivingAddress` must all be truthy. -/
def p0_cryptoConfigOk (enableCryptoVerification : Bool)
    (bscScanApiKey cryptoReceivingAddress : String) : Bool :=
  enableCryptoVerification && strTruthy bscScanApiKey &&
    strTruthy cryptoReceivingAddress

/-- An error notification of the p0 flow. -/
def p0_errorNote (now : Nat) (msg : String) : Notification :=
  { id := "n_err_" ++ Nat.repr now, ntype := .error, message := msg,
    timestamp := now, isRead := false }

/-- Delayed firing of the p0 `addErrorNotification` helper: prepend the
error notification and reset the payment to `unpaid` with the transaction
id cleared. -/
def p0_autoVerifyErrorFire (now : Nat) (msg : String) (payment : Payment)
    (st : P0VerifyState) : P0VerifyState :=
  { st with
    notifications := p0_errorNote now msg :: st.notifications,
    paymentsData := st.paymentsData.map
      (fun p => if p.id = payment.id
        then { p with status := .unpaid, transactionId := "" } else p) }

/-- Immediate effect of the p0 `handleAutoVerify`: with a valid crypto
configuration the payment is marked `verifying`; otherwise nothing happens
now (the scheduled `p0_autoVerifyErrorFire` runs after the delay), so the
payment never reaches `verifying` (fail closed). -/
def p0_handleAutoVerifyStart (configOk : Bool) (payment : Payment)
    (st : P0VerifyState) : P0VerifyState :=
  if configOk then
    { st with
      paymentsData := st.paymentsData.map
        (fun p => if p.id = payment.id then { p with status := .verifying } else p) }
  else st

/-- The p0 first `setTimeout` callback: success marks the payment
`confirmed` and prepends the ledger transaction; failure changes nothing
immediately (the scheduled `p0_autoVerifyErrorFire` runs after the second
delay) — in particular the status `failed` is never assigned. -/
def p0_handleAutoVerifyResolve (isSuccess : Bool) (nowStr : String) (payment : Payment)
    (st : P0VerifyState) : P0VerifyState :=
  if isSuccess then
    { st with
      paymentsData := st.paymentsData.map
        (fun p => if p.id = payment.id then { p with status := .confirmed } else p),
      transactionsData := autoVerifiedTx nowStr payment :: st.transactionsData }
  else st

/-- C7: through the UI boundary, submission runs only while the payment is
`unpaid` and (non-crypto path) has a non-empty transactionId and an
uploaded proof; then the payment moves to `pending` and exactly one
Confirmation is appended, carrying the payment's id, amount and
transactionId with `submittedTimestamp = now`.  In every other case the
operation has no side effect. -/
theorem C7_submit_boundary (now : Nat) (nowStr senderName pid : String)
    (st : SubmitState) (payment : Payment)
    (hfind : st.paymentsData.find? (fun p => p.id == pid) = some payment) :
    (payment.status ≠ .unpaid →
      submitPaymentAction now nowStr senderName pid st = st) ∧
    (payment.transactionId = "" →
      submitPaymentAction now nowStr senderName pid st = st) ∧
    ((payment.proof = none ∨ payment.proof = some "") →
      submitPaymentAction now nowStr senderName pid st = st) ∧
    (payment.status = .unpaid → payment.transactionId ≠ "" →
      ∀ pr, payment.proof = some pr → pr ≠ "" →
        submitPaymentAction now nowStr senderName pid st =
          { paymentsData := st.paymentsData.map
              (fun p => if p.id = payment.id then { p with status := .pending } else p),
            pendingConfirmations := st.pendingConfirmations ++
              [newConfirmation now nowStr senderName payment] } ∧
        (newConfirmation now nowStr senderName payment).paymentId = some payment.id ∧
        (newConfirmation now nowStr senderName payment).amount = payment.amount ∧
        (newConfirmation now nowStr senderName payment).transactionId =
          payment.transactionId ∧
        (newConfirmation now nowStr senderName payment).submittedTimestamp = now) := by
  have hact : submitPaymentAction now nowStr senderName pid st =
      if payment.status = .unpaid ∧ canSubmit false payment = true
      then handleSubmitPayment now nowStr senderName payment st
      else st := by
    rw [submitPaymentAction, hfind]
  refine ⟨?_, ?_, ?_, ?_⟩
  · intro hst
    rw [hact, if_neg (fun h => hst h.1)]
  · intro htx
    rw [hact, if_neg ?_]
    intro h
    have := h.2
    simp [canSubmit, strTruthy, htx] at this
  · intro hpr
    rw [hact, if_neg ?_]
    intro h
    have := h.2
    rcases hpr with hpr | hpr <;>
      simp [canSubmit, strOptTruthy, hpr] at this
  · intro hstat htx pr hprf hpr
    have hcan : canSubmit false payment = true := by
      simp [canSubmit, strTruthy, strOptTruthy, htx, hprf, hpr]
    rw [hact, if_pos ⟨hstat, hcan⟩]
    exact ⟨rfl, rfl, rfl, rfl, rfl⟩

/-- C9: rejecting an existing pending Confirmation removes exactly that
confirmation and resets the underlying payment to `unpaid` with
`transactionId` emptied, proof cleared and `assignedTimestamp = now`, while
its identity, title, type, amount and receiver are untouched; every payment
the confirmation does not point at is left exactly as it was. -/
theorem C9_reject (now : Nat) (cid : String) (st : SubmitState) (c : Confirmation)
    (hfind : st.pendingConfirmations.find? (fun x => x.id == cid) = some c) :
    (handleRejectPayment now cid st).pendingConfirmations =
      st.pendingConfirmations.filter (fun x => !(x.id == cid)) ∧
    (handleRejectPayment now cid st).paymentsData.length = st.paymentsData.length ∧
    ∀ i, (hi : i < st.paymentsData.length) →
      (hi2 : i < (handleRejectPayment now cid st).paymentsData.length) →
      (c.paymentId = some st.paymentsData[i].id →
        (handleRejectPayment now cid st).paymentsData[i] =
            resetPayment now st.paymentsData[i] ∧
          (handleRejectPayment now cid st).paymentsData[i].status = .unpaid ∧
          (handleRejectPayment now cid st).paymentsData[i].transactionId = "" ∧
          (handleRejectPayment now cid st).paymentsData[i].proof = none ∧
          (handleRejectPayment now cid st).paymentsData[i].assignedTimestamp = some now ∧
          (handleRejectPayment now cid st).paymentsData[i].id = st.paymentsData[i].id ∧
          (handleRejectPayment now cid st).paymentsData[i].receiverId =
            st.paymentsData[i].receiverId ∧
          (handleRejectPayment now cid st).paymentsData[i].amount =
            st.paymentsData[i].amount ∧
          (handleRejectPayment now cid st).paymentsData[i].title =
            st.paymentsData[i].title ∧
          (handleRejectPayment now cid st).paymentsData[i].type =
            st.paymentsData[i].type) ∧
      (c.paymentId ≠ some st.paymentsData[i].id →
        (handleRejectPayment now cid st).paymentsData[i] = st.paymentsData[i]) := by
  have hrej : handleRejectPayment now cid st =
      { pendingConfirmations :=
          st.pendingConfirmations.filter (fun x => !(x.id == cid)),
        paymentsData := st.paymentsData.map
          (fun p => if c.paymentId == some p.id then resetPayment now p else p) } := by
    rw [handleRejectPayment, hfind]
  refine ⟨by rw [hrej], by rw [hrej]; simp, ?_⟩
  intro i hi hi2
  have hat : (handleRejectPayment now cid st).paymentsData[i] =
      if c.paymentId == some st.paymentsData[i].id
      then resetPayment now st.paymentsData[i] else st.paymentsData[i] := by
    have hi3 : i < (st.paymentsData.map
        (fun p => if c.paymentId == some p.id then resetPayment now p else p)).length := by
      simpa using hi
    simp only [hrej]
    exact List.getElem_map _
  constructor
  · intro hpid
    have hcond : (c.paymentId == some st.paymentsData[i].id) = true := by
      rw [hpid]; simp
    rw [hat, if_pos hcond]
    exact ⟨rfl, rfl, rfl, rfl, rfl, rfl, rfl, rfl, rfl, rfl⟩
  · intro hpid
    rw [hat, if_neg ?_]
    intro hcond
    exact hpid (by simpa using hcond)

/-- C8 (amended): in `src/Home.tsx`, auto-verify marks the payment
`verifying`; the delayed resolution on success marks it `confirmed` and
prepends one ledger transaction, on failure marks it `failed` with the
ledger untouched, and the second delayed step resets it to `unpaid` with
the transaction id cleared (proof kept).  In the p0 variant a missing
crypto configuration fails closed (the payment never enters `verifying`),
and the failure path never assigns `failed`: resolution leaves the state
unchanged and the delayed error step emits an error notification and
resets the payment from `verifying` straight to `unpaid` with the
transaction id cleared. -/
theorem C8_autoverify (nowStr : String) (payment : Payment) :
    (∀ st : VerifyState, ∀ i, (hi : i < st.paymentsData.length) →
      (hi2 : i < (handleAutoVerifyStart payment st).paymentsData.length) →
      (st.paymentsData[i].id = payment.id →
        (handleAutoVerifyStart payment st).paymentsData[i] =
          { st.paymentsData[i] with status := .verifying }) ∧
      (st.paymentsData[i].id ≠ payment.id →
        (handleAutoVerifyStart payment st).paymentsData[i] = st.paymentsData[i])) ∧
    (∀ st : VerifyState,
      (handleAutoVerifyStart payment st).transactionsData = st.transactionsData) ∧
    (∀ st : VerifyState, ∀ i, (hi : i < st.paymentsData.length) →
      (hi2 : i < (handleAutoVerifyResolve true nowStr payment st).paymentsData.length) →
      (st.paymentsData[i].id = payment.id →
        (handleAutoVerifyResolve true nowStr payment st).paymentsData[i] =
          { st.paymentsData[i] with status := .confirmed }) ∧
      (st.paymentsData[i].id ≠ payment.id →
        (handleAutoVerifyResolve true nowStr payment st).paymentsData[i] =
          st.paymentsData[i])) ∧
    (∀ st : VerifyState,
      (handleAutoVerifyResolve true nowStr payment st).transactionsData =
        autoVerifiedTx nowStr payment :: st.transactionsData) ∧
    (∀ st : VerifyState, ∀ i, (hi : i < st.paymentsData.length) →
      (hi2 : i < (handleAutoVerifyResolve false nowStr payment st).paymentsData.length) →
      (st.paymentsData[i].id = payment.id →
        (handleAutoVerifyResolve false nowStr payment st).paymentsData[i] =
          { st.paymentsData[i] with status := .failed }) ∧
      (st.paymentsData[i].id ≠ payment.id →
        (handleAutoVerifyResolve false nowStr payment st).paymentsData[i] =
          st.paymentsData[i])) ∧
    (∀ st : VerifyState,
      (handleAutoVerifyResolve false nowStr payment st).transactionsData =
        st.transactionsData) ∧
    (∀ st : VerifyState, ∀ i, (hi : i < st.paymentsData.length) →
      (hi2 : i < (handleAutoVerifyFailReset payment st).paymentsData.length) →
      (st.paymentsData[i].id = payment.id →
        (handleAutoVerifyFailReset payment st).paymentsData[i] =
            { st.paymentsData[i] with status := .unpaid, transactionId := "" } ∧
          (handleAutoVerifyFailReset payment st).paymentsData[i].proof =
            st.paymentsData[i].proof) ∧
      (st.paymentsData[i].id ≠ payment.id →
        (handleAutoVerifyFailReset payment st).paymentsData[i] = st.paymentsData[i])) ∧
    (∀ st : P0VerifyState, p0_handleAutoVerifyStart false payment st = st) ∧
    (∀ st : P0VerifyState,
      p0_handleAutoVerifyResolve false nowStr payment st = st) ∧
    (∀ now : Nat, ∀ msg : String, ∀ st : P0VerifyState,
      (p0_autoVerifyErrorFire now msg payment st).notifications =
        p0_errorNote now msg :: st.notifications) ∧
    (∀ now : Nat, ∀ msg : String, ∀ st : P0VerifyState, ∀ i,
      (hi : i < st.paymentsData.length) →
      (hi2 : i < (p0_autoVerifyErrorFire now msg payment st).paymentsData.length) →
      (st.paymentsData[i].id = payment.id →
        (p0_autoVerifyErrorFire now msg payment st).paymentsData[i] =
          { st.paymentsData[i] with status := .unpaid, transactionId := "" }) ∧
      (st.paymentsData[i].id ≠ payment.id →
        (p0_autoVerifyErrorFire now msg payment st).paymentsData[i] =
          st.paymentsData[i]) ∧
      (st.paymentsData[i].status ≠ .failed →
        (p0_autoVerifyErrorFire now msg payment st).paymentsData[i].status ≠
          .failed)) := by
  refine ⟨?_, fun st => rfl, ?_, fun st => rfl, ?_, fun st => rfl, ?_,
    fun st => rfl, fun st => rfl, fun now msg st => rfl, ?_⟩
  · intro st i hi hi2
    have hat : (handleAutoVerifyStart payment st).paymentsData[i] =
        if st.paymentsData[i].id = payment.id
        then { st.paymentsData[i] with status := PaymentStatus.verifying }
        else st.paymentsData[i] := by
      simp only [handleAutoVerifyStart]
      exact List.getElem_map _
    constructor
    · intro h; rw [hat, if_pos h]
    · intro h; rw [hat, if_neg h]
  · intro st i hi hi2
    have hat : (handleAutoVerifyResolve true nowStr payment st).paymentsData[i] =
        if st.paymentsData[i].id = payment.id
        then { st.paymentsData[i] with status := PaymentStatus.confirmed }
        else st.paymentsData[i] := by
      simp only [handleAutoVerifyResolve, if_pos rfl]
      exact List.getElem_map _
    constructor
    · intro h; rw [hat, if_pos h]
    · intro h; rw [hat, if_neg h]
  · intro st i hi hi2
    have hat : (handleAutoVerifyResolve false nowStr payment st).paymentsData[i] =
        if st.paymentsData[i].id = payment.id
        then { st.paymentsData[i] with status := PaymentStatus.failed }
        else st.paymentsData[i] := by
      simp only [handleAutoVerifyResolve, Bool.false_eq_true, if_false]
      exact List.getElem_map _
    constructor
    · intro h; rw [hat, if_pos h]
    · intro h; rw [hat, if_neg h]
  · intro st i hi hi2
    have hat : (handleAutoVerifyFailReset payment st).paymentsData[i] =
        if st.paymentsData[i].id = payment.id
        then { st.paymentsData[i] with
          status := PaymentStatus.unpaid, transactionId := "" }
        else st.paymentsData[i] := by
      simp only [handleAutoVerifyFailReset]
      exact List.getElem_map _
    constructor
    · intro h
      rw [hat, if_pos h]
      exact ⟨rfl, rfl⟩
    · intro h; rw [hat, if_neg h]
  · intro now msg st i hi hi2
    have hat : (p0_autoVerifyErrorFire now msg payment st).paymentsData[i] =
        if st.paymentsData[i].id = payment.id
        then { st.paymentsData[i] with
          status := PaymentStatus.unpaid, transactionId := "" }
        else st.paymentsData[i] := by
      simp only [p0_autoVerifyErrorFire]
      exact List.getElem_map _
    refine ⟨fun h => by rw [hat, if_pos h], fun h => by rw [hat, if_neg h], ?_⟩
    intro hns
    rw [hat]
    by_cases h : st.paymentsData[i].id = payment.id
    · rw [if_pos h]
      intro hcontra
      cases hcontra
    · rw [if_neg h]
      exact hns

/-- A payment sitting in `verifying` on the p0 failure path. -/
def cexC8Payment : Payment :=
  { id := "pay_ref", title := "1. Referral", amount := 300, type := "referral",
    status := .verifying, transactionId := "0xabc", proof := none,
    assignedTimestamp := some 5, receiverId := "usr_sponsor" }

/-- State holding exactly that payment. -/
def cexC8State : P0VerifyState :=
  { paymentsData := [cexC8Payment], transactionsData := [], notifications := [] }

/-- C8 as stated is false of the p0 variant: on the failure outcome the
payment is still `verifying` right after resolution and goes straight to
`unpaid` at the delayed error step — the status `failed` never occurs. -/
theorem C8_autoverify_counterexample :
    (p0_handleAutoVerifyResolve false "d" cexC8Payment cexC8State).paymentsData.map
        (·.status) = [PaymentStatus.verifying] ∧
    (p0_autoVerifyErrorFire 9 "Crypto auto-verification failed." cexC8Payment
        (p0_handleAutoVerifyResolve false "d" cexC8Payment cexC8State)).paymentsData.map
      (·.status) = [PaymentStatus.unpaid] := by
  decide

/-! ## Concrete witness states -/

/-- Three-entrant queue: the local participant `bq_5` is the first
qualified entrant. -/
def wQueueState : QueueState :=
  { binaryData :=
      { leftTeam := [], rightTeam := [], matchedPairs := [], pendingPairs := [],
        matchingQueue :=
          [ { id := "bq_1", name := "K", joinTime := "t1", queuePosition := 1,
              isQualified := false },
            { id := "bq_5", name := "J", joinTime := "t2", queuePosition := 2,
              isQualified := true },
            { id := "bq_3", name := "P", joinTime := "t3", queuePosition := 3,
              isQualified := false } ],
        currentUserPosition := 2 },
    notifications := [] }

theorem C1_queue_rotation_witness :
    (handleProcessBinaryQueue "bq_5" 0 "d" 500 wQueueState).binaryData.matchingQueue.map
        (·.queuePosition) = List.range' 1 2 ∧
    "bq_5" ∉ (handleProcessBinaryQueue "bq_5" 0 "d" 500
        wQueueState).binaryData.matchingQueue.map (·.id) := by
  obtain ⟨hk, h1, h2, h3, h4, h5⟩ :=
    C1_queue_rotation "bq_5" 0 "d" 500 wQueueState (by decide)
  refine ⟨by simpa using h4, ?_⟩
  have h6 := h5 (by decide)
  have hid : (wQueueState.binaryData.matchingQueue.get
      ⟨wQueueState.binaryData.matchingQueue.findIdx (·.isQualified), hk⟩).id = "bq_5" := rfl
  rw [hid] at h6
  exact h6

theorem C2_rotation_permutation_witness :
    (handleProcessBinaryQueue "bq_5" 0 "d" 500
        wQueueState).binaryData.matchingQueue.length + 1 =
      wQueueState.binaryData.matchingQueue.length := by
  obtain ⟨hk, h1, h2, h3⟩ :=
    C2_rotation_permutation "bq_5" 0 "d" 500 wQueueState (by decide)
  exact h2

/-- Expired confirmation on an upline-type payment. -/
def wConfUp : Confirmation :=
  { id := "conf_u", paymentId := some "pay_up1", senderName := "S", amount := 200,
    transactionId := "txu", proof := "pru", date := "d", type := "3. Upline 1",
    submittedTimestamp := 0, receiverId := "usr_u", paymentTitle := "3. Upline 1" }

/-- Expired confirmation on a binary-type payment. -/
def wConfBin : Confirmation :=
  { id := "conf_b", paymentId := some "pay_bin", senderName := "S", amount := 500,
    transactionId := "txb", proof := "prb", date := "d", type := "2. Binary",
    submittedTimestamp := 0, receiverId := "system_binary", paymentTitle := "2. Binary" }

/-- The pending upline payment behind `wConfUp`. -/
def wPayUp : Payment :=
  { id := "pay_up1", title := "3. Upline 1", amount := 200, type := "upline1",
    status := .pending, transactionId := "txu", proof := some "pru",
    assignedTimestamp := some 1, receiverId := "usr_u" }

/-- The pending binary payment behind `wConfBin`. -/
def wPayBin : Payment :=
  { id := "pay_bin", title := "2. Binary", amount := 500, type := "binary",
    status := .pending, transactionId := "txb", proof := some "prb",
    assignedTimestamp := some 1, receiverId := "system_binary" }

/-- State with both confirmations expired. -/
def wConfState : ConfState :=
  { pendingConfirmations := [wConfUp, wConfBin],
    paymentsData := [wPayUp, wPayBin],
    disputes := [],
    allUsers := [{ id := "usr_u", name := "U", status := .active }] }

theorem C3_confirmation_expiry_witness :
    { wPayUp with status := PaymentStatus.disputed } ∈
        (confirmationTimerTick 7200001 7200000 wConfState).paymentsData ∧
    wConfUp ∈ (confirmationTimerTick 7200001 7200000 wConfState).disputes ∧
    resetPayment 7200001 wPayBin ∈
      (confirmationTimerTick 7200001 7200000 wConfState).paymentsData ∧
    wConfBin ∉ (confirmationTimerTick 7200001 7200000 wConfState).disputes ∧
    { wPayBin with status := PaymentStatus.disputed } ∈
      (p0_confirmationTimerTick 7200001 7200000 wConfState).paymentsData := by
  obtain ⟨hp1, hp2, h2, h3, h4, h5⟩ := C3_confirmation_expiry 7200001 7200000 wConfState
    (by decide) (by decide) (by decide)
  have hu := h2 wConfUp (by decide) (by decide) wPayUp (by decide) (by decide)
  have huu := hu.1 (by decide)
  have hb := h2 wConfBin (by decide) (by decide) wPayBin (by decide) (by decide)
  have hbb := hb.2 (by decide)
  have hp0 := h4 wConfBin (by decide) (by decide) wPayBin (by decide) (by decide)
  exact ⟨huu.1, huu.2.1, hbb.1, hbb.2 (by decide), hp0.1⟩

/-- Unpaid referral payment overdue by 11 ms. -/
def wPayOver : Payment :=
  { id := "pay_ref", title := "1. Referral", amount := 300, type := "referral",
    status := .unpaid, transactionId := "", proof := none,
    assignedTimestamp := some 10, receiverId := "usr_sponsor" }

theorem C4_payment_expiry_witness :
    timerIntervalTick 7200011 7200000 [wPayOver] =
      [{ wPayOver with status := PaymentStatus.expired }] := by
  obtain ⟨hlen, h⟩ := C4_payment_expiry 7200011 7200000 [wPayOver]
  have hb : 0 < (timerIntervalTick 7200011 7200000 [wPayOver]).length := by
    rw [hlen]; decide
  have h0 := h 0 (by decide) hb
  have hst := h0.1.mpr (Or.inr ⟨by decide, by decide, 10, by decide, by decide, by decide⟩)
  apply List.ext_getElem (by rw [hlen]; rfl)
  intro i h1 h2
  have hi0 : i = 0 := by
    simp only [List.length_cons, List.length_nil] at h2
    omega
  subst hi0
  rcases h0.2.2.2 with he | he
  · exfalso
    rw [he] at hst
    exact absurd hst (by decide)
  · rw [he]
    rfl

/-- Qualification state with one pending pair, flag previously `false`. -/
def wQualState : QualState :=
  { prevQualified := false,
    binaryData :=
      { leftTeam := [], rightTeam := [],
        matchedPairs := [],
        pendingPairs :=
          [ { pairNumber := 1, leftUsers := ["L"], rightUsers := ["R"],
              date := "d0", amount := 500, status := .pending } ],
        matchingQueue := [], currentUserPosition := 1 },
    notifications := [], transactionsData := [] }

theorem C5_qualification_edge_trigger_witness :
    (qualificationStep true 7 "d" wQualState).binaryData.pendingPairs = [] ∧
    (qualificationStep true 7 "d" wQualState).notifications =
      qualIncomeNote 7 :: wQualState.notifications ∧
    qualificationStep true 8 "e" (qualificationStep true 7 "d" wQualState) =
      qualificationStep true 7 "d" wQualState := by
  obtain ⟨h1, h2, h3⟩ := C5_qualification_edge_trigger 7 "d" wQualState
  have hf := h1 rfl (by decide)
  exact ⟨hf.2.1, hf.2.2.2.1, h3 8 "e"⟩

theorem C6_matched_pair_creation_witness :
    (handleProcessBinaryQueue "bq_5" 0 "d" 500 wQueueState).binaryData.matchedPairs =
      [{ pairNumber := 1, leftUsers := ["System Match L"],
         rightUsers := ["System Match R"], date := "d", amount := 500,
         status := PairStatus.paid }] := by
  obtain ⟨hpos, hneg, hpend, hmono⟩ :=
    C6_matched_pair_creation "bq_5" 0 "d" 500 wQueueState (by decide)
  rw [hpos (by decide)]
  decide

/-- Unpaid referral payment with transaction id and proof filled in. -/
def wSubmitPayment : Payment :=
  { id := "pay_ref", title := "1. Referral", amount := 300, type := "referral",
    status := .unpaid, transactionId := "tx9", proof := some "dataproof",
    assignedTimestamp := some 1, receiverId := "usr_sponsor" }

/-- Submission state holding exactly that payment. -/
def wSubmitState : SubmitState :=
  { paymentsData := [wSubmitPayment], pendingConfirmations := [] }

theorem C7_submit_boundary_witness :
    submitPaymentAction 11 "d" "John" "pay_ref" wSubmitState =
      { paymentsData := [{ wSubmitPayment with status := PaymentStatus.pending }],
        pendingConfirmations := [newConfirmation 11 "d" "John" wSubmitPayment] } := by
  obtain ⟨h1, h2, h3, h4⟩ :=
    C7_submit_boundary 11 "d" "John" "pay_ref" wSubmitState wSubmitPayment (by decide)
  have hs := h4 rfl (by decide) "dataproof" rfl (by decide)
  rw [hs.1]
  decide

theorem C8_autoverify_witness :
    (handleAutoVerifyStart cexC8Payment
        { paymentsData := [cexC8Payment], transactionsData := [] }).paymentsData =
      [{ cexC8Payment with status := PaymentStatus.verifying }] ∧
    p0_handleAutoVerifyStart false cexC8Payment cexC8State = cexC8State := by
  obtain ⟨hstart, hstx, hsucc, hsucctx, hfail, hfailtx, hreset, hp0s, hp0r, hfire, hfirei⟩ :=
    C8_autoverify "d" cexC8Payment
  constructor
  · have h0 := (hstart { paymentsData := [cexC8Payment], transactionsData := [] } 0
      (by decide) (by decide)).1 (by decide)
    apply List.ext_getElem (by decide)
    intro i h1 h2
    have hi0 : i = 0 := by
      simp only [List.length_cons, List.length_nil] at h2
      omega
    subst hi0
    rw [h0]
    rfl
  · exact hp0s cexC8State

/-- The pending confirmation rejected in the C9 witness. -/
def wRejConf : Confirmation :=
  { id := "conf_9", paymentId := some "pay_ref", senderName := "S", amount := 300,
    transactionId := "tx9", proof := "dataproof", date := "d", type := "1. Referral",
    submittedTimestamp := 2, receiverId := "usr_sponsor", paymentTitle := "1. Referral" }

/-- State with one pending payment and its confirmation. -/
def wRejState : SubmitState :=
  { paymentsData :=
      [{ wSubmitPayment with status := PaymentStatus.pending, transactionId := "tx9" }],
    pendingConfirmations := [wRejConf] }

theorem C9_reject_witness :
    (handleRejectPayment 13 "conf_9" wRejState).pendingConfirmations = [] ∧
    (handleRejectPayment 13 "conf_9" wRejState).paymentsData.length = 1 := by
  obtain ⟨h1, h2, h3⟩ := C9_reject 13 "conf_9" wRejState wRejConf (by decide)
  constructor
  · rw [h1]; decide
  · rw [h2]; decide

theorem C10_current_user_position_witness :
    (handleProcessBinaryQueue "bq_1" 0 "d" 500
        wQueueState).binaryData.currentUserPosition = 2 ∧
    (handleProcessBinaryQueue "zz" 0 "d" 500
        wQueueState).binaryData.currentUserPosition = 2 := by
  constructor
  · obtain ⟨hpres, habs⟩ :=
      C10_current_user_position "bq_1" 0 "d" 500 wQueueState (by decide)
    obtain ⟨i, hi, hid, hposq, hcur⟩ := hpres (by decide)
    have hlen : (handleProcessBinaryQueue "bq_1" 0 "d" 500
        wQueueState).binaryData.matchingQueue.length = 2 := by decide
    have hi2 : i < 2 := by rw [hlen] at hi; exact hi
    interval_cases i
    · have hid0 : ((handleProcessBinaryQueue "bq_1" 0 "d" 500
          wQueueState).binaryData.matchingQueue.get ⟨0, hi⟩).id = "bq_3" := rfl
      rw [hid0] at hid
      exact absurd hid (by decide)
    · exact hcur
  · obtain ⟨hpres, habs⟩ :=
      C10_current_user_position "zz" 0 "d" 500 wQueueState (by decide)
    have := habs (by decide)
    rw [this]
    decide
